import Mathlib

/-!
Shallow embedding of the appraiser facial-recognition and multi-tenant
authorization core of the Gold_Loan_Appraisal_React backend:
`backend/services/facial_recognition_service.py` (enrollment, 1:N matching,
threshold management) and `backend/models/database.py` together with
`backend/routers/admin.py` (identity store, tenant provisioning, the
bank/branch authorization mapping and its resolver).

Modelling conventions:
* Similarity values and embedding components are rationals.  The numeric
  internals of numpy's cosine computation and of CPython float
  printing/parsing are external library code, so the gallery scan and the
  storage round-trip are stated generically over the similarity function
  (`simFn`) and the per-component conversions (`fstr`, `fparse`), exactly
  as the scan logic itself is generic in them.
* Python string operations used by the code (`.strip()`, `.upper()`,
  `.lower()`, `.replace(' ', '_')`, `[:20]`, `",".join`, `.split(",")`)
  are modelled at the character-list level with CPython semantics.
* SQL tables are lists of rows in storage (insertion) order; `SERIAL`
  ids are drawn from a single counter `next_id`.
-/

namespace GoldLoan

/-! ### Python string primitives, at the character level -/

/-- CPython `s.split(",")` on the character list: splits at every comma and
keeps empty pieces; splitting the empty string yields one empty piece. -/
def splitCommaCore : List Char → List (List Char)
  | [] => [[]]
  | c :: cs =>
    if c = ',' then [] :: splitCommaCore cs
    else
      match splitCommaCore cs with
      | [] => [[c]]
      | t :: ts => (c :: t) :: ts

/-- CPython `",".join(pieces)` on character lists. -/
def joinCommaCore : List (List Char) → List Char
  | [] => []
  | [p] => p
  | p :: ps => p ++ ',' :: joinCommaCore ps

/-- CPython `s.strip()` on the character list: drop whitespace from both
ends. -/
def stripCore (l : List Char) : List Char :=
  ((l.dropWhile Char.isWhitespace).reverse.dropWhile Char.isWhitespace).reverse

def splitComma (s : String) : List String :=
  (splitCommaCore s.toList).map fun l => String.mk l

def joinComma (l : List String) : String :=
  String.mk (joinCommaCore (l.map String.toList))

/-- CPython `s.strip()`. -/
def pyStrip (s : String) : String :=
  String.mk (stripCore s.toList)

/-- CPython `s.lower()` (ASCII case folding suffices for this code base). -/
def pyLower (s : String) : String :=
  String.mk (s.toList.map Char.toLower)

/-- CPython `s.upper()`. -/
def pyUpper (s : String) : String :=
  String.mk (s.toList.map Char.toUpper)

/-- CPython `s.replace(a, b)` for one-character patterns. -/
def pyReplaceChar (a b : Char) (s : String) : String :=
  String.mk (s.toList.map fun c => if c = a then b else c)

/-- CPython `s[:n]`. -/
def pyTake (n : Nat) (s : String) : String :=
  String.mk (s.toList.take n)

/-! ### Embedding storage format

`register_face` stores `",".join(map(str, embedding.tolist()))`; the gallery
scan recovers `list(map(float, encoding.split(",")))`, failing as a whole if
any component fails to parse. -/

/-- Serialization of an embedding: comma-join of the per-component decimal
representations (`fstr` stands for CPython `str` on a float). -/
def serializeEmbedding {α : Type} (fstr : α → String) (e : List α) : String :=
  joinComma (e.map fstr)

/-- All-or-nothing conversion of the comma-separated pieces: the first
component that fails aborts the whole `list(map(float, ...))`. -/
def parseAll {α : Type} (fparse : String → Option α) : List String → Option (List α)
  | [] => some []
  | s :: t =>
    match fparse s with
    | none => none
    | some x =>
      match parseAll fparse t with
      | none => none
      | some xs => some (x :: xs)

/-- Parsing of a stored embedding: split on commas, convert every component
(`fparse` stands for CPython `float`); any bad component fails the whole
parse, which the scan treats as a corrupt row. -/
def parseEmbedding {α : Type} (fparse : String → Option α) (s : String) :
    Option (List α) :=
  parseAll fparse (splitComma s)

/-! ### Matching engine (`facial_recognition_service.py`) -/

/-- A detected face as returned by the feature extractor:
`faces[i].embedding` and `faces[i].bbox`.  The embedding's scalar type is
the same parameter `α` the scan is generic over. -/
structure FaceDet (α : Type) where
  embedding : List α
  bbox : List ℚ
deriving DecidableEq

/-- One row of `get_all_appraisers_with_face_encoding`, as consumed by the
scan loop of `recognize_face`. -/
structure GalleryRow where
  id : Nat
  name : String
  appraiser_id : String
  face_encoding : Option String
  image_data : String
  bank : String
  branch : String
  email : String
  phone : String
deriving DecidableEq

/-- The `recognized_appraiser` dict built inside the scan loop. -/
structure RecognizedAppraiser where
  name : String
  appraiser_id : String
  similarity : ℚ
  db_id : Nat
  image_data : String
  bank : String
  branch : String
  email : String
  phone : String
deriving DecidableEq

/-- One iteration's view of a gallery row: `None` when the row is skipped
(falsy `face_encoding`, or an encoding that fails to parse — the
`except: continue` branch), otherwise the row's similarity against the
probe paired with the candidate payload the loop would record. -/
def rowEntry {α : Type} (fparse : String → Option α)
    (simFn : List α → List α → ℚ) (probe : List α) (r : GalleryRow) :
    Option (ℚ × RecognizedAppraiser) :=
  match r.face_encoding with
  | none => none
  | some enc =>
    if enc = "" then none
    else
      match parseEmbedding fparse enc with
      | none => none
      | some known =>
        let s := simFn known probe
        some (s,
          { name := r.name, appraiser_id := r.appraiser_id, similarity := s,
            db_id := r.id, image_data := r.image_data, bank := r.bank,
            branch := r.branch, email := r.email, phone := r.phone })

/-- The running-maximum accumulator of `recognize_face`:
`if sim > max_sim and sim > self.threshold: max_sim, best = sim, row`. -/
def runningBest {β : Type} (t : ℚ) : List (ℚ × β) → ℚ → Option β → Option β
  | [], _, best => best
  | e :: rest, maxSim, best =>
    if e.1 > maxSim ∧ e.1 > t then runningBest t rest e.1 (some e.2)
    else runningBest t rest maxSim best

/-- The scan loop of `recognize_face`, iterating gallery rows in storage
order with accumulator `(max_sim, recognized_appraiser)`. -/
def scanLoop {α : Type} (fparse : String → Option α)
    (simFn : List α → List α → ℚ) (t : ℚ) (probe : List α) :
    List GalleryRow → ℚ → Option RecognizedAppraiser → Option RecognizedAppraiser
  | [], _, best => best
  | r :: rest, maxSim, best =>
    match rowEntry fparse simFn probe r with
    | none => scanLoop fparse simFn t probe rest maxSim best
    | some e =>
      if e.1 > maxSim ∧ e.1 > t then scanLoop fparse simFn t probe rest e.1 (some e.2)
      else scanLoop fparse simFn t probe rest maxSim best

/-- The whole gallery scan, started from `max_sim = -1` and no candidate. -/
def scanGallery {α : Type} (fparse : String → Option α)
    (simFn : List α → List α → ℚ) (t : ℚ) (probe : List α)
    (rows : List GalleryRow) : Option RecognizedAppraiser :=
  scanLoop fparse simFn t probe rows (-1) none

/-- Process-wide mutable service state: the similarity threshold
(default `0.5`). -/
structure ServiceState where
  threshold : ℚ
deriving DecidableEq

/-- Failure modes of `extract_face_embedding` (each is a distinct raised
exception in the source). -/
inductive ExtractError
  | notAvailable
  | noFace
  | multipleFaces
deriving DecidableEq

/-- `extract_face_embedding`: service unavailable, zero faces and several
faces each raise; otherwise the single detected face is returned. -/
def extract_face_embedding {α : Type} (available : Bool) (faces : List (FaceDet α)) :
    Except ExtractError (FaceDet α) :=
  if ¬available then .error .notAvailable
  else
    match faces with
    | [] => .error .noFace
    | [f] => .ok f
    | _ => .error .multipleFaces

/-- The possible replies of `recognize_face`, one constructor per distinct
returned dict shape. -/
inductive RecognizeResult
  | serviceUnavailable
  | invalidImage
  | noFaceDetected
  | multipleFaces
  | detectionError
  | recognized (appraiser : RecognizedAppraiser) (bbox : List ℚ)
  | noMatch (bbox : List ℚ)
deriving DecidableEq

/-- `recognize_face`: the 1:N identification entry point.  `img` is `none`
when `base64_to_cv2_image` failed, otherwise it carries the faces the
detector finds on the decoded image. -/
def recognize_face {α : Type} (fparse : String → Option α)
    (simFn : List α → List α → ℚ) (available : Bool)
    (img : Option (List (FaceDet α)))
    (gallery : List GalleryRow) (st : ServiceState) : RecognizeResult :=
  if ¬available then .serviceUnavailable
  else
    match img with
    | none => .invalidImage
    | some faces =>
      match extract_face_embedding available faces with
      | .error .noFace => .noFaceDetected
      | .error .multipleFaces => .multipleFaces
      | .error .notAvailable => .detectionError
      | .ok f =>
        match scanGallery fparse simFn st.threshold f.embedding gallery with
        | some p => .recognized p f.bbox
        | none => .noMatch f.bbox

/-- The old/new pair returned by a successful `update_threshold`. -/
structure ThresholdUpdate where
  old_threshold : ℚ
  new_threshold : ℚ
deriving DecidableEq

/-- `update_threshold`: raises for values outside `[0, 1]` (leaving the
state untouched), otherwise swaps in the new process-wide threshold and
reports old and new values. -/
def update_threshold (st : ServiceState) (t : ℚ) :
    Except String ThresholdUpdate × ServiceState :=
  if ¬(0 ≤ t ∧ t ≤ 1) then
    (.error "Threshold must be between 0.0 and 1.0", st)
  else
    (.ok ⟨st.threshold, t⟩, { st with threshold := t })

/-! ### Data model (`backend/models/database.py`) -/

/-- A row of `banks` (the fields this core reads or writes). -/
structure Bank where
  id : Nat
  bank_code : String
  bank_name : String
  bank_short_name : String
  is_active : Bool
deriving DecidableEq

/-- A row of `branches`. -/
structure Branch where
  id : Nat
  bank_id : Nat
  branch_code : String
  branch_name : String
  is_active : Bool
deriving DecidableEq

/-- A row of `tenant_users`. -/
structure TenantUser where
  id : Nat
  user_id : String
  bank_id : Nat
  branch_id : Option Nat
  full_name : Option String
  email : Option String
  phone : Option String
  face_encoding : Option String
  image_data : Option String
  is_active : Bool
deriving DecidableEq

/-- A row of `overall_sessions` (registered appraisers live here with
`session_id = "registration_" + appraiser_id` and `status = 'registered'`). -/
structure SessionRow where
  id : Nat
  session_id : String
  name : String
  appraiser_id : String
  image_data : String
  face_encoding : Option String
  status : String
  created_at : String
  bank : Option String
  branch : Option String
  email : Option String
  phone : Option String
  bank_id : Option Nat
  branch_id : Option Nat
  tenant_user_id : Option Nat
deriving DecidableEq

/-- A row of `appraiser_bank_branch_map`; `(appraiser_id, bank_id,
branch_id)` is a UNIQUE key and `is_active` defaults to `true`. -/
structure MapRow where
  appraiser_id : String
  bank_id : Nat
  branch_id : Nat
  is_active : Bool
deriving DecidableEq

/-- The database: each table in storage (insertion) order, plus the serial
id counter. -/
structure DB where
  banks : List Bank
  branches : List Branch
  tenant_users : List TenantUser
  sessions : List SessionRow
  mappings : List MapRow
  next_id : Nat
deriving DecidableEq

/-- CPython truthiness of an optional string (`None` and `""` are falsy). -/
def truthy : Option String → Bool
  | none => false
  | some s => s != ""

/-- `get_bank_by_code`: `SELECT * FROM banks WHERE bank_code = %s AND
is_active = true`. -/
def get_bank_by_code (db : DB) (code : String) : Option Bank :=
  db.banks.find? fun b => b.bank_code == code && b.is_active

/-- `create_bank`: INSERT with `is_active` defaulting to true, returning the
fresh serial id. -/
def create_bank (db : DB) (code bname shortName : String) : Nat × DB :=
  (db.next_id,
   { db with
      banks := db.banks ++ [⟨db.next_id, code, bname, shortName, true⟩],
      next_id := db.next_id + 1 })

/-- `get_branch_by_code`: lookup by `(bank_id, branch_code)` over active
branches. -/
def get_branch_by_code (db : DB) (bankId : Nat) (code : String) : Option Branch :=
  db.branches.find? fun b => b.bank_id == bankId && b.branch_code == code && b.is_active

/-- `create_branch`. -/
def create_branch (db : DB) (bankId : Nat) (code bname : String) : Nat × DB :=
  (db.next_id,
   { db with
      branches := db.branches ++ [⟨db.next_id, bankId, code, bname, true⟩],
      next_id := db.next_id + 1 })

/-- `get_tenant_user_by_id`: lookup by `(bank_id, user_id)` over active
users. -/
def get_tenant_user_by_id (db : DB) (bankId : Nat) (userId : String) : Option TenantUser :=
  db.tenant_users.find? fun u => u.bank_id == bankId && u.user_id == userId && u.is_active

/-- `create_tenant_user`. -/
def create_tenant_user (db : DB) (userId : String) (bankId : Nat)
    (branchId : Option Nat) (fullName email phone faceEncoding imageData : Option String) :
    Nat × DB :=
  (db.next_id,
   { db with
      tenant_users := db.tenant_users ++
        [⟨db.next_id, userId, bankId, branchId, fullName, email, phone,
          faceEncoding, imageData, true⟩],
      next_id := db.next_id + 1 })

/-- The lookup-code normalization `insert_appraiser` applies to a supplied
human-readable bank or branch name: `name.replace(' ', '_').upper()[:20]`. -/
def tenantLookupCode (s : String) : String :=
  pyTake 20 (pyUpper (pyReplaceChar ' ' '_' s))

/-- `INSERT INTO appraiser_bank_branch_map ... ON CONFLICT (appraiser_id,
bank_id, branch_id) DO UPDATE SET is_active = true` — the upsert used by
`insert_appraiser` and `add_appraiser_to_bank_branch`. -/
def upsertMappingActive (db : DB) (aid : String) (bankId branchId : Nat) : DB :=
  if db.mappings.any fun m =>
      m.appraiser_id == aid && m.bank_id == bankId && m.branch_id == branchId then
    { db with
        mappings := db.mappings.map fun m =>
          if m.appraiser_id == aid && m.bank_id == bankId && m.branch_id == branchId then
            { m with is_active := true }
          else m }
  else
    { db with mappings := db.mappings ++ [⟨aid, bankId, branchId, true⟩] }

/-- `INSERT INTO appraiser_bank_branch_map ... ON CONFLICT DO NOTHING` — the
self-heal insert inside `verify_appraiser_exists_in_bank_branch`: a
conflicting row (active or soft-deleted) is left untouched. -/
def insertMappingIfAbsent (db : DB) (aid : String) (bankId branchId : Nat) : DB :=
  if db.mappings.any fun m =>
      m.appraiser_id == aid && m.bank_id == bankId && m.branch_id == branchId then
    db
  else
    { db with mappings := db.mappings ++ [⟨aid, bankId, branchId, true⟩] }

/-- The bank-resolution block of `insert_appraiser`
(`if not bank_id and bank:`): resolve the id from the normalized code,
auto-creating the bank on first use. -/
def resolveBankId (db : DB) (bank_id : Option Nat) (bank : Option String) :
    Option Nat × DB :=
  if bank_id.isNone && truthy bank then
    let bname := bank.getD ""
    let bank_code := tenantLookupCode bname
    match get_bank_by_code db bank_code with
    | none =>
      let r := create_bank db bank_code bname
        (if bname.length > 20 then pyTake 20 bname else bname)
      (some r.1, r.2)
    | some b => (some b.id, db)
  else (bank_id, db)

/-- The branch-resolution block of `insert_appraiser`
(`if not branch_id and branch and bank_id:`). -/
def resolveBranchId (db : DB) (branch_id : Option Nat) (branch : Option String)
    (bank_id : Option Nat) : Option Nat × DB :=
  if branch_id.isNone && truthy branch && bank_id.isSome then
    let brname := branch.getD ""
    let branch_code := tenantLookupCode brname
    let bid := bank_id.getD 0
    match get_branch_by_code db bid branch_code with
    | none =>
      let r := create_branch db bid branch_code brname
      (some r.1, r.2)
    | some b => (some b.id, db)
  else (branch_id, db)

/-- The tenant-user block of `insert_appraiser`
(`if not tenant_user_id and bank_id:`). -/
def resolveTenantUserId (db : DB) (tenant_user_id : Option Nat)
    (bank_id branch_id : Option Nat) (appraiser_id name : String)
    (email phone face_encoding : Option String) (image_data : String) :
    Option Nat × DB :=
  if tenant_user_id.isNone && bank_id.isSome then
    let bid := bank_id.getD 0
    match get_tenant_user_by_id db bid appraiser_id with
    | some u => (some u.id, db)
    | none =>
      let r := create_tenant_user db appraiser_id bid branch_id
        (some name) email phone face_encoding (some image_data)
      (some r.1, r.2)
  else (tenant_user_id, db)

/-- The `overall_sessions` upsert of `insert_appraiser`, keyed by
`session_id`: if a row exists it is updated in place (`appraiser_id` is not
touched), otherwise a fresh row is inserted with `status = 'registered'`. -/
def upsertRegistrationRow (db : DB) (pid name appraiser_id image_data timestamp : String)
    (face_encoding bank branch email phone : Option String)
    (bank_id branch_id tenant_user_id : Option Nat) : Nat × DB :=
  match db.sessions.find? fun r => r.session_id == pid with
  | some existing =>
    (existing.id,
     { db with
        sessions := db.sessions.map fun r =>
          if r.session_id == pid then
            { r with
                name := name, image_data := image_data,
                face_encoding := face_encoding, status := "registered",
                created_at := timestamp, bank := bank, branch := branch,
                email := email, phone := phone, bank_id := bank_id,
                branch_id := branch_id, tenant_user_id := tenant_user_id }
          else r })
  | none =>
    (db.next_id,
     { db with
        sessions := db.sessions ++
          [⟨db.next_id, pid, name, appraiser_id, image_data, face_encoding,
            "registered", timestamp, bank, branch, email, phone, bank_id,
            branch_id, tenant_user_id⟩],
        next_id := db.next_id + 1 })

/-- `Database.insert_appraiser`: resolve/auto-create tenant rows from the
human-readable names, create the tenant user if needed, upsert the
registration row keyed by `session_id = "registration_" + appraiser_id`,
and finally upsert the bank/branch mapping when both ids resolved.
Returns the stored row id and the new database. -/
def insert_appraiser (db : DB) (name appraiser_id image_data timestamp : String)
    (face_encoding bank branch email phone : Option String)
    (bank_id branch_id tenant_user_id : Option Nat) : Nat × DB :=
  let pid := "registration_" ++ appraiser_id
  let rb := resolveBankId db bank_id bank
  let rbr := resolveBranchId rb.2 branch_id branch rb.1
  let rt := resolveTenantUserId rbr.2 tenant_user_id rb.1 rbr.1 appraiser_id name
    email phone face_encoding image_data
  let ru := upsertRegistrationRow rt.2 pid name appraiser_id image_data timestamp
    face_encoding bank branch email phone rb.1 rbr.1 rt.1
  match rb.1, rbr.1 with
  | some bid, some brid => (ru.1, upsertMappingActive ru.2 appraiser_id bid brid)
  | _, _ => ru

/-- Failure modes of `register_face` apart from service unavailability:
an image that does not decode, or a raised extraction error. -/
inductive RegisterFail
  | invalidImage
  | extract (e : ExtractError)
deriving DecidableEq

/-- The replies of `register_face`. -/
inductive RegisterResult
  | serviceUnavailable
  | failed (e : RegisterFail)
  | success (appraiser_id : String) (db_id : Nat) (bbox : List ℚ)
deriving DecidableEq

/-- `register_face`: validates availability and the capture, extracts the
single face, serializes its embedding and stores the appraiser through
`insert_appraiser`.  Failures raise and leave the database untouched. -/
def register_face {α : Type} (fstr : α → String) (available : Bool)
    (img : Option (List (FaceDet α))) (name appraiser_id image timestamp : String)
    (bank branch email phone : Option String) (db : DB) : RegisterResult × DB :=
  if ¬available then (.serviceUnavailable, db)
  else
    match img with
    | none => (.failed .invalidImage, db)
    | some faces =>
      match extract_face_embedding available faces with
      | .error e => (.failed (.extract e), db)
      | .ok f =>
        let embedding_str := serializeEmbedding fstr f.embedding
        let r := insert_appraiser db name appraiser_id image timestamp
          (some embedding_str) bank branch email phone none none none
        (.success appraiser_id r.1 f.bbox, r.2)

/-! ### Authorization resolver
(`Database.verify_appraiser_exists_in_bank_branch` and the
`/verify-appraiser` endpoint of `routers/admin.py`) -/

/-- The dict returned for an authorized candidate. -/
structure VerifyPayload where
  id : Nat
  appraiser_id : String
  name : String
  email : Option String
  phone : Option String
  bank_id : Nat
  branch_id : Nat
  bank_name : Option String
  branch_name : Option String
  has_face_encoding : Bool
  has_image : Bool
  timestamp : String
deriving DecidableEq

/-- Active-row membership test on the mapping table
(`SELECT 1 FROM appraiser_bank_branch_map WHERE ... AND is_active = true`). -/
def activeMapped (db : DB) (aid : String) (bankId branchId : Nat) : Bool :=
  db.mappings.any fun m =>
    m.appraiser_id == aid && m.bank_id == bankId && m.branch_id == branchId && m.is_active

/-- `SELECT bank_name FROM banks WHERE id = %s`. -/
def bankNameOf (db : DB) (bankId : Nat) : Option String :=
  (db.banks.find? fun b => b.id == bankId).map Bank.bank_name

/-- `SELECT branch_name FROM branches WHERE id = %s`. -/
def branchNameOf (db : DB) (branchId : Nat) : Option String :=
  (db.branches.find? fun b => b.id == branchId).map Branch.branch_name

/-- The result dict assembled for an authorized candidate (CPython `bool`
on the stored strings for the two `has_` flags). -/
def verifyPayloadOf (db : DB) (bankId branchId : Nat) (a : SessionRow) : VerifyPayload :=
  { id := a.id, appraiser_id := a.appraiser_id, name := a.name,
    email := a.email, phone := a.phone, bank_id := bankId, branch_id := branchId,
    bank_name := bankNameOf db bankId, branch_name := branchNameOf db branchId,
    has_face_encoding := truthy a.face_encoding,
    has_image := a.image_data != "",
    timestamp := a.created_at }

/-- The SQL name filter used both by the resolver and by the router's
follow-up query: `status = 'registered' AND LOWER(os.name) = LOWER(%s)`.
`n` is the already-stripped requested name. -/
def regNameMatch (n : String) (s : SessionRow) : Bool :=
  s.status == "registered" && pyLower s.name == pyLower n

/-- The candidate fetch of `verify_appraiser_exists_in_bank_branch`
(all registered identities whose name matches case-insensitively, in
storage order); the method strips its `name` argument itself. -/
def sameNameRegistered (db : DB) (nm : String) : List SessionRow :=
  db.sessions.filter (regNameMatch (pyStrip nm))

/-- The outcome of one resolver call: the result dict (or `None`), whether
the returned candidate was authorized by the mapping-table check (the
`is_mapped` value before the legacy fallback ran), and the database after
any self-heal insert. -/
structure VerifyOut where
  result : Option VerifyPayload
  viaMapping : Bool
  db : DB
deriving DecidableEq

/-- The candidate loop of `verify_appraiser_exists_in_bank_branch`: per
candidate, first the mapping-table check, then the legacy fallback
(primary bank/branch equality) which self-heals by inserting the missing
mapping row with `ON CONFLICT DO NOTHING`. -/
def verifyLoop (bankId branchId : Nat) (db : DB) : List SessionRow → VerifyOut
  | [] => ⟨none, false, db⟩
  | a :: rest =>
    if activeMapped db a.appraiser_id bankId branchId then
      ⟨some (verifyPayloadOf db bankId branchId a), true, db⟩
    else if a.bank_id == some bankId && a.branch_id == some branchId then
      let db2 := insertMappingIfAbsent db a.appraiser_id bankId branchId
      ⟨some (verifyPayloadOf db2 bankId branchId a), false, db2⟩
    else verifyLoop bankId branchId db rest

/-- `Database.verify_appraiser_exists_in_bank_branch`. -/
def verify_appraiser_exists_in_bank_branch (db : DB) (nm : String)
    (bankId branchId : Nat) : VerifyOut :=
  let appraisers := sameNameRegistered db nm
  if appraisers.isEmpty then ⟨none, false, db⟩
  else verifyLoop bankId branchId db appraisers

/-- The three user-visible outcomes of the `/verify-appraiser` endpoint. -/
inductive VerifyResponse
  | authorized (p : VerifyPayload)
  | registeredElsewhere (bank_name branch_name : Option String)
  | notRegistered
deriving DecidableEq

/-- `verify_appraiser` (`routers/admin.py`): runs the resolver on the
stripped name; when it returns `None`, a follow-up `LIMIT 1` query over the
same name filter separates "registered elsewhere" (reporting that row's
joined primary bank/branch names) from "not registered". -/
def verify_appraiser (db : DB) (name : String) (bankId branchId : Nat) :
    VerifyResponse × DB :=
  let stripped := pyStrip name
  let out := verify_appraiser_exists_in_bank_branch db stripped bankId branchId
  match out.result with
  | some p => (.authorized p, out.db)
  | none =>
    match out.db.sessions.find? (regNameMatch stripped) with
    | some existing =>
      (.registeredElsewhere
        (existing.bank_id.bind fun bid => bankNameOf out.db bid)
        (existing.branch_id.bind fun brid => branchNameOf out.db brid), out.db)
    | none => (.notRegistered, out.db)

/-- A candidate is authorized at the requested tenant, by either of the two
checks the loop applies (active mapping row, or legacy primary pair). -/
def authorizedHere (db : DB) (bankId branchId : Nat) (s : SessionRow) : Bool :=
  activeMapped db s.appraiser_id bankId branchId ||
    (s.bank_id == some bankId && s.branch_id == some branchId)

/-- `remove_appraiser_from_bank_branch`: soft delete of a mapping row
(`SET is_active = false`). -/
def remove_appraiser_from_bank_branch (db : DB) (aid : String)
    (bankId branchId : Nat) : DB :=
  { db with
      mappings := db.mappings.map fun m =>
        if m.appraiser_id == aid && m.bank_id == bankId && m.branch_id == branchId then
          { m with is_active := false }
        else m }

/-- Modelled from the spec: the normalization the spec describes for tenant
lookup codes — "trim, uppercase, strip spaces, truncate to a fixed max code
length".  Stated only to compare against `tenantLookupCode`, the
normalization the source actually applies. -/
def specNormalizeCode (s : String) : String :=
  pyTake 20 (String.mk (((pyUpper (pyStrip s)).toList.filter fun c => c != ' ')))

/-! ### Concrete data used to exercise the definitions

The per-component conversions and the similarity function are chosen freely
(they stand for the external numpy/CPython numerics); the rows and
databases are small concrete states. -/

/-- A table-based component parser standing in for CPython `float`. -/
def demoParse (s : String) : Option ℚ :=
  if s = "0" then some 0
  else if s = "1" then some 1
  else if s = "2" then some 2
  else if s = "3" then some 3
  else if s = "q" then some (mkRat 3 5)
  else none

/-- A simple similarity function standing in for cosine similarity. -/
def demoSim (known probe : List ℚ) : ℚ :=
  if probe = [] then 0 else known.headD 0

def exFace : FaceDet ℚ := ⟨[1], [0, 0, 10, 10]⟩

def exRowA : GalleryRow := ⟨7, "asha", "AP1", some "3", "imgA", "b", "br", "e", "p"⟩

def exRowB : GalleryRow := ⟨8, "mira", "AP2", some "3", "imgB", "b", "br", "e", "p"⟩

def exRowC : GalleryRow := ⟨9, "zoe", "AP3", some "2", "imgC", "b", "br", "e", "p"⟩

def exRowQ : GalleryRow := ⟨12, "qq", "AP6", some "q", "imgQ", "b", "br", "e", "p"⟩

def exRowBad : GalleryRow := ⟨10, "bad", "AP4", some "xx", "imgD", "b", "br", "e", "p"⟩

def exPayloadA : RecognizedAppraiser := ⟨"asha", "AP1", 3, 7, "imgA", "b", "br", "e", "p"⟩

def exPayloadB : RecognizedAppraiser := ⟨"mira", "AP2", 3, 8, "imgB", "b", "br", "e", "p"⟩

def exPayloadC : RecognizedAppraiser := ⟨"zoe", "AP3", 2, 9, "imgC", "b", "br", "e", "p"⟩

def exPayloadQ : RecognizedAppraiser :=
  ⟨"qq", "AP6", mkRat 3 5, 12, "imgQ", "b", "br", "e", "p"⟩

/-- A component printer over `Bool` scalars, with a matching exact parser:
a stand-in for CPython float `str`/`float`, which round-trip on finite
floats and never print a comma or an empty string. -/
def boolStr (b : Bool) : String := if b then "1" else "0"

def boolParse (s : String) : Option Bool :=
  if s = "1" then some true else if s = "0" then some false else none

def boolSim (a b2 : List Bool) : ℚ := if a = b2 then 1 else 0

def exRowBool : GalleryRow := ⟨11, "bb", "AP5", some "1,0", "img", "b", "br", "e", "p"⟩

def exBank1 : Bank := ⟨1, "B1", "Bank One", "B1", true⟩

def exBranch1 : Branch := ⟨2, 1, "BR1", "Branch A", true⟩

def exBank2 : Bank := ⟨3, "B2", "Bank Two", "B2", true⟩

def exBranch2 : Branch := ⟨4, 3, "BR2", "Branch B", true⟩

/-- Asha Rao, enrolled with primary tenant Bank One / Branch A. -/
def exSess1 : SessionRow :=
  ⟨5, "registration_AP1", "Asha Rao", "AP1", "img1", some "3", "registered", "t1",
   some "Bank One", some "Branch A", none, none, some 1, some 2, none⟩

/-- A different Asha Rao, enrolled with primary tenant Bank Two / Branch B. -/
def exSess2 : SessionRow :=
  ⟨6, "registration_AP2", "Asha Rao", "AP2", "img2", some "2", "registered", "t2",
   some "Bank Two", some "Branch B", none, none, some 3, some 4, none⟩

/-- Asha Rao (AP1) with primary tenant Bank Two / Branch B. -/
def exSess1b : SessionRow :=
  ⟨5, "registration_AP1", "Asha Rao", "AP1", "img1", some "3", "registered", "t1",
   some "Bank Two", some "Branch B", none, none, some 3, some 4, none⟩

/-- Asha Rao (AP2) with primary tenant Bank One / Branch A. -/
def exSess2b : SessionRow :=
  ⟨6, "registration_AP2", "Asha Rao", "AP2", "img2", some "2", "registered", "t2",
   some "Bank One", some "Branch A", none, none, some 1, some 2, none⟩

/-- Two same-name identities under different tenants, no mapping rows. -/
def exDb2 : DB := ⟨[exBank1, exBank2], [exBranch1, exBranch2], [], [exSess1, exSess2], [], 10⟩

/-- One legacy identity (primary pair matches, no mapping row at all). -/
def exDb3 : DB := ⟨[exBank1], [exBranch1], [], [exSess1], [], 10⟩

/-- One legacy identity whose mapping row for its own primary pair has been
soft-deleted (`remove_appraiser_from_bank_branch`). -/
def exDb4 : DB := ⟨[exBank1], [exBranch1], [], [exSess1], [⟨"AP1", 1, 2, false⟩], 10⟩

/-- The same state before the soft delete: the mapping row is active. -/
def exDb4active : DB :=
  ⟨[exBank1], [exBranch1], [], [exSess1], [⟨"AP1", 1, 2, true⟩], 10⟩

/-- AP1 is soft-deleted at (1, 2) and primary elsewhere; AP2 shares the
name and has primary (1, 2). -/
def exDb5 : DB :=
  ⟨[exBank1, exBank2], [exBranch1, exBranch2], [], [exSess1b, exSess2b],
   [⟨"AP1", 1, 2, false⟩], 10⟩

/-- A database already holding a registration row for AP1. -/
def exDb6 : DB :=
  ⟨[], [], [],
   [⟨5, "registration_AP1", "Old Name", "AP1", "oldimg", some "oldenc", "registered",
     "t0", none, none, none, none, none, none, none⟩],
   [], 10⟩

/-- An empty database (fresh tenant provisioning). -/
def exDb7 : DB := ⟨[], [], [], [], [], 1⟩

/-! ### Helper lemmas: strings -/

lemma toList_mk (l : List Char) : (String.mk l).toList = l := rfl

lemma mk_toList (s : String) : String.mk s.toList = s := rfl

lemma dropWhile_head_false {α : Type} {p : α → Bool} :
    ∀ {l : List α} {c : α} {t : List α}, l.dropWhile p = c :: t → p c = false := by
  intro l
  induction l with
  | nil => intro c t h; cases h
  | cons a as ih =>
    intro c t h
    by_cases hp : p a
    · rw [List.dropWhile_cons_of_pos hp] at h
      exact ih h
    · rw [List.dropWhile_cons_of_neg hp] at h
      cases h
      exact Bool.of_not_eq_true hp

lemma dropWhile_idem {α : Type} (p : α → Bool) (l : List α) :
    (l.dropWhile p).dropWhile p = l.dropWhile p := by
  cases h : l.dropWhile p with
  | nil => rfl
  | cons c t => exact List.dropWhile_cons_of_neg (by simp [dropWhile_head_false h])

lemma stripCore_idem (l : List Char) : stripCore (stripCore l) = stripCore l := by
  have h1 : (stripCore l).dropWhile Char.isWhitespace = stripCore l := by
    unfold stripCore
    set A := l.dropWhile Char.isWhitespace with hA
    cases hBr : (A.reverse.dropWhile Char.isWhitespace).reverse with
    | nil => rfl
    | cons c t =>
      have hpre : (A.reverse.dropWhile Char.isWhitespace).reverse <+: A := by
        have := List.reverse_prefix.mpr
          (List.dropWhile_suffix (l := A.reverse) Char.isWhitespace)
        rwa [List.reverse_reverse] at this
      rw [hBr] at hpre
      obtain ⟨r, hr⟩ := hpre
      have hc : Char.isWhitespace c = false :=
        dropWhile_head_false (l := l) (t := t ++ r) (by rw [← hA, ← hr, List.cons_append])
      exact List.dropWhile_cons_of_neg (by simp [hc])
  unfold stripCore at h1 ⊢
  rw [h1, List.reverse_reverse, dropWhile_idem]

lemma pyStrip_idem (s : String) : pyStrip (pyStrip s) = pyStrip s := by
  unfold pyStrip
  rw [toList_mk, stripCore_idem]

/-! ### Helper lemmas: the comma-separated storage format -/

lemma splitCommaCore_no_comma {l : List Char} (h : ',' ∉ l) :
    splitCommaCore l = [l] := by
  induction l with
  | nil => rfl
  | cons c cs ih =>
    have hc : ¬(c = ',') := fun he => h (he ▸ List.mem_cons_self c cs)
    have hcs : ',' ∉ cs := fun hm => h (List.mem_cons_of_mem c hm)
    simp [splitCommaCore, hc, ih hcs]

lemma splitCommaCore_append {p : List Char} (r : List Char) (h : ',' ∉ p) :
    splitCommaCore (p ++ ',' :: r) = p :: splitCommaCore r := by
  induction p with
  | nil => simp [splitCommaCore]
  | cons c cs ih =>
    have hc : ¬(c = ',') := fun he => h (he ▸ List.mem_cons_self c cs)
    have hcs : ',' ∉ cs := fun hm => h (List.mem_cons_of_mem c hm)
    show splitCommaCore (c :: (cs ++ ',' :: r)) = (c :: cs) :: splitCommaCore r
    simp only [splitCommaCore, if_neg hc]
    rw [ih hcs]

lemma splitCommaCore_joinCommaCore :
    ∀ (ps : List (List Char)), ps ≠ [] → (∀ p ∈ ps, ',' ∉ p) →
      splitCommaCore (joinCommaCore ps) = ps := by
  intro ps
  induction ps with
  | nil => intro h; exact absurd rfl h
  | cons p qs ih =>
    intro _ hps
    cases qs with
    | nil =>
      exact splitCommaCore_no_comma (hps p (List.mem_cons_self p []))
    | cons q rs =>
      have : joinCommaCore (p :: q :: rs) = p ++ ',' :: joinCommaCore (q :: rs) := rfl
      rw [this, splitCommaCore_append _ (hps p (List.mem_cons_self p _)),
        ih (by simp) (fun x hx => hps x (List.mem_cons_of_mem p hx))]

lemma splitComma_joinComma (l : List String) (hne : l ≠ [])
    (h : ∀ s ∈ l, ',' ∉ s.toList) : splitComma (joinComma l) = l := by
  unfold splitComma joinComma
  rw [toList_mk, splitCommaCore_joinCommaCore (l.map String.toList)
    (by simpa using hne)
    (by intro p hp
        obtain ⟨s, hs, rfl⟩ := List.mem_map.mp hp
        exact h s hs)]
  rw [List.map_map]
  have hid : ((fun l => String.mk l) ∘ String.toList) = id := funext fun s => mk_toList s
  rw [hid, List.map_id]

lemma parseAll_map_roundtrip {α : Type} {fstr : α → String} {fparse : String → Option α}
    (hrt : ∀ x, fparse (fstr x) = some x) :
    ∀ e : List α, parseAll fparse (e.map fstr) = some e := by
  intro e
  induction e with
  | nil => rfl
  | cons x t ih => simp [parseAll, hrt x, ih]

lemma parse_serialize {α : Type} {fstr : α → String} {fparse : String → Option α}
    (hrt : ∀ x, fparse (fstr x) = some x) (hnc : ∀ x, ',' ∉ (fstr x).toList)
    (e : List α) (he : e ≠ []) :
    parseEmbedding fparse (serializeEmbedding fstr e) = some e := by
  unfold parseEmbedding serializeEmbedding
  rw [splitComma_joinComma (e.map fstr) (by simpa using he)
    (by intro s hs
        obtain ⟨x, _, rfl⟩ := List.mem_map.mp hs
        exact hnc x)]
  exact parseAll_map_roundtrip hrt e

lemma serializeEmbedding_ne_empty {α : Type} {fstr : α → String}
    (hne : ∀ x, fstr x ≠ "") {e : List α} (he : e ≠ []) :
    serializeEmbedding fstr e ≠ "" := by
  unfold serializeEmbedding joinComma
  intro hcon
  have hdata : joinCommaCore ((e.map fstr).map String.toList) = [] := by
    have := congrArg String.toList hcon
    rwa [toList_mk] at this
  cases e with
  | nil => exact he rfl
  | cons x t =>
    cases t with
    | nil =>
      have : (fstr x).toList = [] := hdata
      exact hne x (by rw [← mk_toList (fstr x), this])
    | cons y u =>
      have : joinCommaCore (((x :: y :: u).map fstr).map String.toList) =
          (fstr x).toList ++ ',' :: joinCommaCore (((y :: u).map fstr).map String.toList) := rfl
      rw [this] at hdata
      exact List.append_ne_nil_of_right_ne_nil _ (by simp) hdata

/-! ### Helper lemmas: the running-maximum scan -/

lemma runningBest_eq_some_iff {β : Type} (t : ℚ) :
    ∀ (l : List (ℚ × β)) (m : ℚ) (b : Option β) (p : β),
      runningBest t l m b = some p ↔
        (∃ pre e post, l = pre ++ e :: post ∧ p = e.2 ∧ e.1 > m ∧ e.1 > t ∧
            (∀ f ∈ pre, f.1 < e.1) ∧ (∀ f ∈ post, f.1 ≤ e.1)) ∨
        (b = some p ∧ ∀ e ∈ l, ¬(e.1 > m ∧ e.1 > t)) := by
  intro l
  induction l with
  | nil =>
    intro m b p
    constructor
    · intro h
      exact Or.inr ⟨h, by simp⟩
    · rintro (⟨pre, e, post, hdec, _⟩ | ⟨hb, _⟩)
      · exact absurd hdec (by simp)
      · exact hb
  | cons e rest ih =>
    intro m b p
    by_cases hc : e.1 > m ∧ e.1 > t
    · rw [show runningBest t (e :: rest) m b =
          runningBest t rest e.1 (some e.2) by simp [runningBest, hc], ih]
      constructor
      · rintro (⟨pre, x, post, hdec, hp, hxm, hxt, hpre, hpost⟩ | ⟨hb, hrest⟩)
        · refine Or.inl ⟨e :: pre, x, post, by rw [hdec, List.cons_append], hp,
            lt_trans hc.1 hxm, hxt, ?_, hpost⟩
          intro f hf
          rcases List.mem_cons.mp hf with rfl | hf2
          · exact hxm
          · exact hpre f hf2
        · refine Or.inl ⟨[], e, rest, by simp, (Option.some.injEq _ _ ▸ hb).symm,
            hc.1, hc.2, by simp, ?_⟩
          intro f hf
          by_contra hgt
          exact hrest f hf ⟨lt_of_not_le hgt, lt_trans hc.2 (lt_of_not_le hgt)⟩
      · rintro (⟨pre, x, post, hdec, hp, hxm, hxt, hpre, hpost⟩ | ⟨hb, hall⟩)
        · cases pre with
          | nil =>
            simp only [List.nil_append] at hdec
            injection hdec with h1 h2
            subst h1
            subst h2
            refine Or.inr ⟨by rw [hp], ?_⟩
            intro f hf hcon
            exact absurd hcon.1 (not_lt_of_le (hpost f hf))
          | cons y pre2 =>
            rw [List.cons_append] at hdec
            injection hdec with h1 h2
            subst h1
            refine Or.inl ⟨pre2, x, post, h2, hp, ?_, hxt, ?_, hpost⟩
            · exact hpre e (List.mem_cons_self e pre2)
            · intro f hf
              exact hpre f (List.mem_cons_of_mem e hf)
        · exact absurd hc (hall e (List.mem_cons_self e rest))
    · rw [show runningBest t (e :: rest) m b =
          runningBest t rest m b by simp [runningBest, hc], ih]
      constructor
      · rintro (⟨pre, x, post, hdec, hp, hxm, hxt, hpre, hpost⟩ | ⟨hb, hrest⟩)
        · refine Or.inl ⟨e :: pre, x, post, by rw [hdec, List.cons_append], hp,
            hxm, hxt, ?_, hpost⟩
          intro f hf
          rcases List.mem_cons.mp hf with rfl | hf2
          · push_neg at hc
            by_cases hm : f.1 > m
            · exact lt_of_le_of_lt (hc hm) hxt
            · exact lt_of_le_of_lt (le_of_not_lt hm) hxm
          · exact hpre f hf2
        · refine Or.inr ⟨hb, ?_⟩
          intro f hf
          rcases List.mem_cons.mp hf with rfl | hf2
          · exact hc
          · exact hrest f hf2
      · rintro (⟨pre, x, post, hdec, hp, hxm, hxt, hpre, hpost⟩ | ⟨hb, hall⟩)
        · cases pre with
          | nil =>
            simp only [List.nil_append] at hdec
            injection hdec with h1 h2
            subst h2
            exact absurd ⟨h1 ▸ hxm, h1 ▸ hxt⟩ hc
          | cons y pre2 =>
            rw [List.cons_append] at hdec
            injection hdec with h1 h2
            subst h1
            refine Or.inl ⟨pre2, x, post, h2, hp, hxm, hxt, ?_, hpost⟩
            intro f hf
            exact hpre f (List.mem_cons_of_mem e hf)
        · exact Or.inr ⟨hb, fun f hf => hall f (List.mem_cons_of_mem e hf)⟩

lemma runningBest_no_update {β : Type} (t : ℚ) :
    ∀ (l : List (ℚ × β)) (m : ℚ) (b : Option β),
      (∀ e ∈ l, ¬(e.1 > m ∧ e.1 > t)) → runningBest t l m b = b := by
  intro l
  induction l with
  | nil => intro m b _; rfl
  | cons e rest ih =>
    intro m b hall
    rw [show runningBest t (e :: rest) m b = runningBest t rest m b by
      simp [runningBest, hall e (List.mem_cons_self e rest)]]
    exact ih m b fun f hf => hall f (List.mem_cons_of_mem e hf)

lemma scanLoop_eq_runningBest {α : Type} (fparse : String → Option α)
    (simFn : List α → List α → ℚ) (t : ℚ) (probe : List α) :
    ∀ (rows : List GalleryRow) (m : ℚ) (b : Option RecognizedAppraiser),
      scanLoop fparse simFn t probe rows m b =
        runningBest t (rows.filterMap (rowEntry fparse simFn probe)) m b := by
  intro rows
  induction rows with
  | nil => intro m b; rfl
  | cons r rest ih =>
    intro m b
    cases hre : rowEntry fparse simFn probe r with
    | none => simp only [scanLoop, hre, List.filterMap_cons, ih]
    | some e =>
      by_cases hcond : e.1 > m ∧ e.1 > t
      · simp only [scanLoop, hre, List.filterMap_cons, runningBest, if_pos hcond, ih]
      · simp only [scanLoop, hre, List.filterMap_cons, runningBest, if_neg hcond, ih]

lemma rowEntry_sim_eq {α : Type} {fparse : String → Option α}
    {simFn : List α → List α → ℚ} {probe : List α} {r : GalleryRow}
    {e : ℚ × RecognizedAppraiser} (h : rowEntry fparse simFn probe r = some e) :
    e.2.similarity = e.1 := by
  unfold rowEntry at h
  cases hfe : r.face_encoding with
  | none => simp [hfe] at h
  | some enc =>
    simp only [hfe] at h
    by_cases hemp : enc = ""
    · simp [if_pos hemp] at h
    · simp only [if_neg hemp] at h
      cases hpe : parseEmbedding fparse enc with
      | none => simp [hpe] at h
      | some known =>
        simp only [hpe] at h
        cases h
        rfl

/-! ### Helper lemmas: the authorization resolver -/

lemma insertMappingIfAbsent_banks (db : DB) (aid : String) (b br : Nat) :
    (insertMappingIfAbsent db aid b br).banks = db.banks := by
  unfold insertMappingIfAbsent
  split <;> rfl

lemma insertMappingIfAbsent_branches (db : DB) (aid : String) (b br : Nat) :
    (insertMappingIfAbsent db aid b br).branches = db.branches := by
  unfold insertMappingIfAbsent
  split <;> rfl

lemma insertMappingIfAbsent_sessions (db : DB) (aid : String) (b br : Nat) :
    (insertMappingIfAbsent db aid b br).sessions = db.sessions := by
  unfold insertMappingIfAbsent
  split <;> rfl

lemma verifyPayloadOf_insertMappingIfAbsent (db : DB) (aid : String) (b br bid brid : Nat)
    (a : SessionRow) :
    verifyPayloadOf (insertMappingIfAbsent db aid b br) bid brid a =
      verifyPayloadOf db bid brid a := by
  unfold verifyPayloadOf bankNameOf branchNameOf
  rw [insertMappingIfAbsent_banks, insertMappingIfAbsent_branches]

lemma verifyLoop_some_iff (bankId branchId : Nat) (db : DB) :
    ∀ (cs : List SessionRow) (p : VerifyPayload) (via2 : Bool) (db2 : DB),
      verifyLoop bankId branchId db cs = ⟨some p, via2, db2⟩ ↔
        ∃ pre a post, cs = pre ++ a :: post ∧
          (∀ x ∈ pre, authorizedHere db bankId branchId x = false) ∧
          ((activeMapped db a.appraiser_id bankId branchId = true ∧ via2 = true ∧
              db2 = db ∧ p = verifyPayloadOf db bankId branchId a) ∨
           (activeMapped db a.appraiser_id bankId branchId = false ∧
              (a.bank_id == some bankId && a.branch_id == some branchId) = true ∧
              via2 = false ∧
              db2 = insertMappingIfAbsent db a.appraiser_id bankId branchId ∧
              p = verifyPayloadOf db bankId branchId a)) := by
  intro cs
  induction cs with
  | nil =>
    intro p via2 db2
    constructor
    · intro h
      exact absurd (congrArg VerifyOut.result h) (by simp [verifyLoop])
    · rintro ⟨pre, a, post, hdec, _⟩
      exact absurd hdec (by simp)
  | cons a rest ih =>
    intro p via2 db2
    by_cases h1 : activeMapped db a.appraiser_id bankId branchId
    · rw [show verifyLoop bankId branchId db (a :: rest) =
          ⟨some (verifyPayloadOf db bankId branchId a), true, db⟩ by
        simp [verifyLoop, h1]]
      constructor
      · intro h
        obtain ⟨hr, hv, hd⟩ := VerifyOut.mk.injEq _ _ _ _ _ _ ▸ h
        exact ⟨[], a, rest, by simp, by simp,
          Or.inl ⟨h1, hv.symm, hd.symm, (Option.some.injEq _ _ ▸ hr).symm⟩⟩
      · rintro ⟨pre, x, post, hdec, hpre, hcase⟩
        cases pre with
        | nil =>
          simp only [List.nil_append] at hdec
          injection hdec with hx hrest
          subst hx
          subst hrest
          rcases hcase with ⟨_, hv, hd, hp⟩ | ⟨hm, _⟩
          · rw [hv, hd, hp]
          · exact absurd h1 (by rw [hm]; simp)
        | cons y pre2 =>
          rw [List.cons_append] at hdec
          injection hdec with hy _
          subst hy
          have := hpre a (List.mem_cons_self a pre2)
          rw [authorizedHere, h1] at this
          simp at this
    · by_cases h2 : (a.bank_id == some bankId && a.branch_id == some branchId) = true
      · rw [show verifyLoop bankId branchId db (a :: rest) =
            ⟨some (verifyPayloadOf
                (insertMappingIfAbsent db a.appraiser_id bankId branchId) bankId branchId a),
              false, insertMappingIfAbsent db a.appraiser_id bankId branchId⟩ by
          simp [verifyLoop, h1, h2]]
        rw [verifyPayloadOf_insertMappingIfAbsent]
        constructor
        · intro h
          obtain ⟨hr, hv, hd⟩ := VerifyOut.mk.injEq _ _ _ _ _ _ ▸ h
          exact ⟨[], a, rest, by simp, by simp,
            Or.inr ⟨Bool.eq_false_iff.mpr h1, h2, hv.symm, hd.symm,
              (Option.some.injEq _ _ ▸ hr).symm⟩⟩
        · rintro ⟨pre, x, post, hdec, hpre, hcase⟩
          cases pre with
          | nil =>
            simp only [List.nil_append] at hdec
            injection hdec with hx hrest
            subst hx
            subst hrest
            rcases hcase with ⟨hm, _⟩ | ⟨_, _, hv, hd, hp⟩
            · exact absurd hm (Bool.eq_false_iff.mpr h1 ▸ by simp)
            · rw [hv, hd, hp]
          | cons y pre2 =>
            rw [List.cons_append] at hdec
            injection hdec with hy _
            subst hy
            have := hpre a (List.mem_cons_self a pre2)
            rw [authorizedHere, h2] at this
            simp at this
      · rw [show verifyLoop bankId branchId db (a :: rest) =
            verifyLoop bankId branchId db rest by
          simp [verifyLoop, h1, h2]]
        rw [ih]
        constructor
        · rintro ⟨pre, x, post, hdec, hpre, hcase⟩
          refine ⟨a :: pre, x, post, by rw [hdec, List.cons_append], ?_, hcase⟩
          intro f hf
          rcases List.mem_cons.mp hf with rfl | hf2
          · rw [authorizedHere]
            simp only [Bool.or_eq_false_iff]
            exact ⟨Bool.eq_false_iff.mpr h1, Bool.eq_false_iff.mpr h2⟩
          · exact hpre f hf2
        · rintro ⟨pre, x, post, hdec, hpre, hcase⟩
          cases pre with
          | nil =>
            simp only [List.nil_append] at hdec
            injection hdec with hx hrest
            subst hx
            rcases hcase with ⟨hm, _⟩ | ⟨_, hpm, _⟩
            · exact absurd hm (Bool.eq_false_iff.mpr h1 ▸ by simp)
            · exact absurd hpm (Bool.eq_false_iff.mpr h2 ▸ by simp)
          | cons y pre2 =>
            rw [List.cons_append] at hdec
            injection hdec with hy hrest
            subst hy
            exact ⟨pre2, x, post, hrest, fun f hf => hpre f (List.mem_cons_of_mem a hf),
              hcase⟩

lemma verifyLoop_none_iff (bankId branchId : Nat) (db : DB) :
    ∀ (cs : List SessionRow) (v : Bool) (db2 : DB),
      verifyLoop bankId branchId db cs = ⟨none, v, db2⟩ ↔
        (∀ x ∈ cs, authorizedHere db bankId branchId x = false) ∧ v = false ∧ db2 = db := by
  intro cs
  induction cs with
  | nil =>
    intro v db2
    constructor
    · intro h
      obtain ⟨_, hv, hd⟩ := VerifyOut.mk.injEq _ _ _ _ _ _ ▸ h
      exact ⟨by simp, hv.symm, hd.symm⟩
    · rintro ⟨_, rfl, rfl⟩
      rfl
  | cons a rest ih =>
    intro v db2
    by_cases h1 : activeMapped db a.appraiser_id bankId branchId
    · rw [show verifyLoop bankId branchId db (a :: rest) =
          ⟨some (verifyPayloadOf db bankId branchId a), true, db⟩ by
        simp [verifyLoop, h1]]
      constructor
      · intro h
        exact absurd (congrArg VerifyOut.result h) (by simp)
      · rintro ⟨hall, _, _⟩
        have := hall a (List.mem_cons_self a rest)
        rw [authorizedHere, h1] at this
        simp at this
    · by_cases h2 : (a.bank_id == some bankId && a.branch_id == some branchId) = true
      · rw [show verifyLoop bankId branchId db (a :: rest) =
            ⟨some (verifyPayloadOf
                (insertMappingIfAbsent db a.appraiser_id bankId branchId) bankId branchId a),
              false, insertMappingIfAbsent db a.appraiser_id bankId branchId⟩ by
          simp [verifyLoop, h1, h2]]
        constructor
        · intro h
          exact absurd (congrArg VerifyOut.result h) (by simp)
        · rintro ⟨hall, _, _⟩
          have := hall a (List.mem_cons_self a rest)
          rw [authorizedHere, h2] at this
          simp at this
      · rw [show verifyLoop bankId branchId db (a :: rest) =
            verifyLoop bankId branchId db rest by
          simp [verifyLoop, h1, h2]]
        rw [ih]
        constructor
        · rintro ⟨hall, hv, hd⟩
          refine ⟨?_, hv, hd⟩
          intro f hf
          rcases List.mem_cons.mp hf with rfl | hf2
          · rw [authorizedHere]
            simp only [Bool.or_eq_false_iff]
            exact ⟨Bool.eq_false_iff.mpr h1, Bool.eq_false_iff.mpr h2⟩
          · exact hall f hf2
        · rintro ⟨hall, hv, hd⟩
          exact ⟨fun f hf => hall f (List.mem_cons_of_mem a hf), hv, hd⟩

lemma find?_eq_head_filter {α : Type} (p : α → Bool) (l : List α) :
    l.find? p = (l.filter p).head? := by
  induction l with
  | nil => rfl
  | cons a as ih =>
    by_cases h : p a
    · rw [List.find?_cons_of_pos as h, List.filter_cons_of_pos h, List.head?_cons]
    · rw [List.find?_cons_of_neg as h, List.filter_cons_of_neg h, ih]

lemma verify_method_some_iff (db : DB) (nm : String) (bankId branchId : Nat)
    (p : VerifyPayload) (via2 : Bool) (db2 : DB) :
    verify_appraiser_exists_in_bank_branch db nm bankId branchId = ⟨some p, via2, db2⟩ ↔
      ∃ pre a post, sameNameRegistered db nm = pre ++ a :: post ∧
        (∀ x ∈ pre, authorizedHere db bankId branchId x = false) ∧
        ((activeMapped db a.appraiser_id bankId branchId = true ∧ via2 = true ∧
            db2 = db ∧ p = verifyPayloadOf db bankId branchId a) ∨
         (activeMapped db a.appraiser_id bankId branchId = false ∧
            (a.bank_id == some bankId && a.branch_id == some branchId) = true ∧
            via2 = false ∧
            db2 = insertMappingIfAbsent db a.appraiser_id bankId branchId ∧
            p = verifyPayloadOf db bankId branchId a)) := by
  unfold verify_appraiser_exists_in_bank_branch
  by_cases he : (sameNameRegistered db nm).isEmpty
  · rw [if_pos he]
    constructor
    · intro h
      exact absurd (congrArg VerifyOut.result h) (by simp)
    · rintro ⟨pre, a, post, hdec, _⟩
      rw [List.isEmpty_iff.mp he] at hdec
      exact absurd hdec (by simp)
  · rw [if_neg he]
    exact verifyLoop_some_iff bankId branchId db (sameNameRegistered db nm) p via2 db2

lemma verify_method_none_iff (db : DB) (nm : String) (bankId branchId : Nat)
    (v : Bool) (db2 : DB) :
    verify_appraiser_exists_in_bank_branch db nm bankId branchId = ⟨none, v, db2⟩ ↔
      (∀ x ∈ sameNameRegistered db nm, authorizedHere db bankId branchId x = false) ∧
        v = false ∧ db2 = db := by
  unfold verify_appraiser_exists_in_bank_branch
  by_cases he : (sameNameRegistered db nm).isEmpty
  · rw [if_pos he]
    constructor
    · intro h
      obtain ⟨_, hv, hd⟩ := VerifyOut.mk.injEq _ _ _ _ _ _ ▸ h
      refine ⟨?_, hv.symm, hd.symm⟩
      rw [List.isEmpty_iff.mp he]
      simp
    · rintro ⟨_, rfl, rfl⟩
      rfl
  · rw [if_neg he]
    exact verifyLoop_none_iff bankId branchId db (sameNameRegistered db nm) v db2

lemma verify_method_eta (db : DB) (nm : String) (bankId branchId : Nat) :
    verify_appraiser_exists_in_bank_branch db nm bankId branchId =
      ⟨(verify_appraiser_exists_in_bank_branch db nm bankId branchId).result,
       (verify_appraiser_exists_in_bank_branch db nm bankId branchId).viaMapping,
       (verify_appraiser_exists_in_bank_branch db nm bankId branchId).db⟩ := rfl

lemma verify_method_result_some_iff (db : DB) (nm : String) (bankId branchId : Nat)
    (p : VerifyPayload) :
    (verify_appraiser_exists_in_bank_branch db nm bankId branchId).result = some p ↔
      ∃ pre a post, sameNameRegistered db nm = pre ++ a :: post ∧
        (∀ x ∈ pre, authorizedHere db bankId branchId x = false) ∧
        authorizedHere db bankId branchId a = true ∧
        p = verifyPayloadOf db bankId branchId a := by
  constructor
  · intro h
    have hout := verify_method_eta db nm bankId branchId
    rw [h] at hout
    obtain ⟨pre, a, post, hdec, hpre, hcase⟩ :=
      (verify_method_some_iff db nm bankId branchId p _ _).mp hout
    refine ⟨pre, a, post, hdec, hpre, ?_, ?_⟩
    · rcases hcase with ⟨hm, _⟩ | ⟨_, hpm, _⟩
      · rw [authorizedHere, hm]
        rfl
      · rw [authorizedHere, hpm]
        simp
    · rcases hcase with ⟨_, _, _, hp⟩ | ⟨_, _, _, _, hp⟩ <;> exact hp
  · rintro ⟨pre, a, post, hdec, hpre, hauth, hp⟩
    by_cases hm : activeMapped db a.appraiser_id bankId branchId
    · have : verify_appraiser_exists_in_bank_branch db nm bankId branchId =
          ⟨some p, true, db⟩ :=
        (verify_method_some_iff db nm bankId branchId p true db).mpr
          ⟨pre, a, post, hdec, hpre, Or.inl ⟨hm, rfl, rfl, hp⟩⟩
      rw [this]
    · have hpm : (a.bank_id == some bankId && a.branch_id == some branchId) = true := by
        rw [authorizedHere] at hauth
        rcases Bool.or_eq_true_iff.mp hauth with h | h
        · exact absurd h hm
        · exact h
      have : verify_appraiser_exists_in_bank_branch db nm bankId branchId =
          ⟨some p, false, insertMappingIfAbsent db a.appraiser_id bankId branchId⟩ :=
        (verify_method_some_iff db nm bankId branchId p false _).mpr
          ⟨pre, a, post, hdec, hpre,
            Or.inr ⟨Bool.eq_false_iff.mpr hm, hpm, rfl, rfl, hp⟩⟩
      rw [this]

lemma verify_method_result_none_parts (db : DB) (nm : String) (bankId branchId : Nat)
    (h : (verify_appraiser_exists_in_bank_branch db nm bankId branchId).result = none) :
    (∀ x ∈ sameNameRegistered db nm, authorizedHere db bankId branchId x = false) ∧
      (verify_appraiser_exists_in_bank_branch db nm bankId branchId).viaMapping = false ∧
      (verify_appraiser_exists_in_bank_branch db nm bankId branchId).db = db := by
  have hout := verify_method_eta db nm bankId branchId
  rw [h] at hout
  obtain ⟨hall, hv, hd⟩ := (verify_method_none_iff db nm bankId branchId _ _).mp hout
  exact ⟨hall, hv, hd⟩

lemma verify_method_result_none_of (db : DB) (nm : String) (bankId branchId : Nat)
    (hall : ∀ x ∈ sameNameRegistered db nm, authorizedHere db bankId branchId x = false) :
    verify_appraiser_exists_in_bank_branch db nm bankId branchId = ⟨none, false, db⟩ :=
  (verify_method_none_iff db nm bankId branchId false db).mpr ⟨hall, rfl, rfl⟩

lemma sameNameRegistered_strip (db : DB) (nm : String) :
    sameNameRegistered db (pyStrip nm) = db.sessions.filter (regNameMatch (pyStrip nm)) := by
  unfold sameNameRegistered
  rw [pyStrip_idem]

/-! ### Helper lemmas: enrollment and tenant provisioning -/

lemma resolveBankId_sessions (db : DB) (bid : Option Nat) (bank : Option String) :
    (resolveBankId db bid bank).2.sessions = db.sessions := by
  unfold resolveBankId
  by_cases h : (bid.isNone && truthy bank) = true
  · rw [if_pos h]
    cases hg : get_bank_by_code db (tenantLookupCode (bank.getD "")) <;>
      simp only [hg, create_bank]
  · rw [if_neg h]

lemma resolveBankId_branches (db : DB) (bid : Option Nat) (bank : Option String) :
    (resolveBankId db bid bank).2.branches = db.branches := by
  unfold resolveBankId
  by_cases h : (bid.isNone && truthy bank) = true
  · rw [if_pos h]
    cases hg : get_bank_by_code db (tenantLookupCode (bank.getD "")) <;>
      simp only [hg, create_bank]
  · rw [if_neg h]

lemma resolveBranchId_sessions (db : DB) (brid : Option Nat) (branch : Option String)
    (bid : Option Nat) : (resolveBranchId db brid branch bid).2.sessions = db.sessions := by
  unfold resolveBranchId
  by_cases h : (brid.isNone && truthy branch && bid.isSome) = true
  · rw [if_pos h]
    cases hg : get_branch_by_code db (bid.getD 0) (tenantLookupCode (branch.getD "")) <;>
      simp only [hg, create_branch]
  · rw [if_neg h]

lemma resolveBranchId_banks (db : DB) (brid : Option Nat) (branch : Option String)
    (bid : Option Nat) : (resolveBranchId db brid branch bid).2.banks = db.banks := by
  unfold resolveBranchId
  by_cases h : (brid.isNone && truthy branch && bid.isSome) = true
  · rw [if_pos h]
    cases hg : get_branch_by_code db (bid.getD 0) (tenantLookupCode (branch.getD "")) <;>
      simp only [hg, create_branch]
  · rw [if_neg h]

lemma resolveTenantUserId_sessions (db : DB) (tuid bid brid : Option Nat)
    (aid nm : String) (email phone fe : Option String) (img : String) :
    (resolveTenantUserId db tuid bid brid aid nm email phone fe img).2.sessions =
      db.sessions := by
  unfold resolveTenantUserId
  by_cases h : (tuid.isNone && bid.isSome) = true
  · rw [if_pos h]
    cases hg : get_tenant_user_by_id db (bid.getD 0) aid <;>
      simp only [hg, create_tenant_user]
  · rw [if_neg h]

lemma resolveTenantUserId_banks (db : DB) (tuid bid brid : Option Nat)
    (aid nm : String) (email phone fe : Option String) (img : String) :
    (resolveTenantUserId db tuid bid brid aid nm email phone fe img).2.banks =
      db.banks := by
  unfold resolveTenantUserId
  by_cases h : (tuid.isNone && bid.isSome) = true
  · rw [if_pos h]
    cases hg : get_tenant_user_by_id db (bid.getD 0) aid <;>
      simp only [hg, create_tenant_user]
  · rw [if_neg h]

lemma resolveTenantUserId_branches (db : DB) (tuid bid brid : Option Nat)
    (aid nm : String) (email phone fe : Option String) (img : String) :
    (resolveTenantUserId db tuid bid brid aid nm email phone fe img).2.branches =
      db.branches := by
  unfold resolveTenantUserId
  by_cases h : (tuid.isNone && bid.isSome) = true
  · rw [if_pos h]
    cases hg : get_tenant_user_by_id db (bid.getD 0) aid <;>
      simp only [hg, create_tenant_user]
  · rw [if_neg h]

lemma upsertMappingActive_sessions (db : DB) (aid : String) (b br : Nat) :
    (upsertMappingActive db aid b br).sessions = db.sessions := by
  unfold upsertMappingActive
  split <;> rfl

lemma upsertMappingActive_banks (db : DB) (aid : String) (b br : Nat) :
    (upsertMappingActive db aid b br).banks = db.banks := by
  unfold upsertMappingActive
  split <;> rfl

lemma upsertMappingActive_branches (db : DB) (aid : String) (b br : Nat) :
    (upsertMappingActive db aid b br).branches = db.branches := by
  unfold upsertMappingActive
  split <;> rfl

lemma upsertRegistrationRow_banks (db : DB) (pid nm aid img ts : String)
    (fe bank branch email phone : Option String) (bid brid tuid : Option Nat) :
    (upsertRegistrationRow db pid nm aid img ts fe bank branch email phone
      bid brid tuid).2.banks = db.banks := by
  unfold upsertRegistrationRow
  cases hg : db.sessions.find? fun r => r.session_id == pid <;> simp only [hg]

lemma upsertRegistrationRow_branches (db : DB) (pid nm aid img ts : String)
    (fe bank branch email phone : Option String) (bid brid tuid : Option Nat) :
    (upsertRegistrationRow db pid nm aid img ts fe bank branch email phone
      bid brid tuid).2.branches = db.branches := by
  unfold upsertRegistrationRow
  cases hg : db.sessions.find? fun r => r.session_id == pid <;> simp only [hg]

/-- The sessions list after `insert_appraiser` is whatever the registration
upsert produced on a database whose sessions are still the input ones. -/
lemma insert_appraiser_sessions (db : DB) (nm aid img ts : String)
    (fe bank branch email phone : Option String) (bid brid tuid : Option Nat) :
    ∃ dbMid : DB, dbMid.sessions = db.sessions ∧
      (insert_appraiser db nm aid img ts fe bank branch email phone bid brid tuid).2.sessions =
        (upsertRegistrationRow dbMid ("registration_" ++ aid) nm aid img ts fe bank branch
          email phone (resolveBankId db bid bank).1
          (resolveBranchId (resolveBankId db bid bank).2 brid branch (resolveBankId db bid bank).1).1
          (resolveTenantUserId
            (resolveBranchId (resolveBankId db bid bank).2 brid branch (resolveBankId db bid bank).1).2
            tuid (resolveBankId db bid bank).1
            (resolveBranchId (resolveBankId db bid bank).2 brid branch (resolveBankId db bid bank).1).1
            aid nm email phone fe img).1).2.sessions ∧
      dbMid =
        (resolveTenantUserId
          (resolveBranchId (resolveBankId db bid bank).2 brid branch (resolveBankId db bid bank).1).2
          tuid (resolveBankId db bid bank).1
          (resolveBranchId (resolveBankId db bid bank).2 brid branch (resolveBankId db bid bank).1).1
          aid nm email phone fe img).2 := by
  refine ⟨_, ?_, ?_, rfl⟩
  · rw [resolveTenantUserId_sessions, resolveBranchId_sessions, resolveBankId_sessions]
  · unfold insert_appraiser
    rcases h1 : (resolveBankId db bid bank).1 with _ | bid1 <;>
      simp only [h1] <;>
      rcases h2 : (resolveBranchId (resolveBankId db bid bank).2 brid branch
        (resolveBankId db bid bank).1).1 with _ | brid1 <;>
      simp only [h1] at h2 <;>
      simp only [h2, upsertMappingActive_sessions]

lemma upsertRegistrationRow_props (db : DB) (pid nm aid img ts : String)
    (fe bank branch email phone : Option String) (bid brid tuid : Option Nat)
    (hex : ∃ r ∈ db.sessions, (r.session_id == pid) = true) :
    (upsertRegistrationRow db pid nm aid img ts fe bank branch email phone
        bid brid tuid).2.sessions.length = db.sessions.length ∧
    (upsertRegistrationRow db pid nm aid img ts fe bank branch email phone
        bid brid tuid).2.sessions.countP (fun r => r.session_id == pid) =
      db.sessions.countP (fun r => r.session_id == pid) ∧
    (∀ r ∈ (upsertRegistrationRow db pid nm aid img ts fe bank branch email phone
        bid brid tuid).2.sessions, (r.session_id == pid) = true →
      r.name = nm ∧ r.image_data = img ∧ r.face_encoding = fe ∧
        r.status = "registered" ∧ r.created_at = ts ∧ r.bank = bank ∧
        r.branch = branch ∧ r.email = email ∧ r.phone = phone) := by
  obtain ⟨ex0, hex0, hexid⟩ := hex
  cases hfind : db.sessions.find? fun r => r.session_id == pid with
  | none => exact absurd hexid (List.find?_eq_none.mp hfind ex0 hex0)
  | some ex =>
    unfold upsertRegistrationRow
    simp only [hfind]
    refine ⟨List.length_map _ _, ?_, ?_⟩
    · rw [List.countP_map]
      apply List.countP_congr
      intro r _
      simp only [Function.comp_apply]
      by_cases hr : (r.session_id == pid) = true
      · rw [if_pos hr]
      · rw [if_neg hr]
    · intro r hr hrid
      obtain ⟨r0, hr0, heq⟩ := List.mem_map.mp hr
      by_cases h0 : (r0.session_id == pid) = true
      · rw [if_pos h0] at heq
        subst heq
        exact ⟨rfl, rfl, rfl, rfl, rfl, rfl, rfl, rfl, rfl⟩
      · rw [if_neg h0] at heq
        subst heq
        exact absurd hrid h0

lemma resolveBankId_create (db : DB) (bname : String) (hb : bname ≠ "")
    (hnone : get_bank_by_code db (tenantLookupCode bname) = none) :
    resolveBankId db none (some bname) =
      (some db.next_id,
       { db with
          banks := db.banks ++ [⟨db.next_id, tenantLookupCode bname, bname,
            if bname.length > 20 then pyTake 20 bname else bname, true⟩],
          next_id := db.next_id + 1 }) := by
  unfold resolveBankId
  have ht : ((none : Option Nat).isNone && truthy (some bname)) = true := by
    simp [truthy, hb]
  rw [if_pos ht]
  simp only [Option.getD_some, hnone, create_bank]

lemma resolveBranchId_create (db : DB) (brname : String) (bidv : Nat)
    (hbr : brname ≠ "")
    (hnone : get_branch_by_code db bidv (tenantLookupCode brname) = none) :
    resolveBranchId db none (some brname) (some bidv) =
      (some db.next_id,
       { db with
          branches := db.branches ++
            [⟨db.next_id, bidv, tenantLookupCode brname, brname, true⟩],
          next_id := db.next_id + 1 }) := by
  unfold resolveBranchId
  have ht : ((none : Option Nat).isNone && truthy (some brname) &&
      (some bidv).isSome) = true := by
    simp [truthy, hbr]
  rw [if_pos ht]
  simp only [Option.getD_some, hnone, create_branch]

lemma insertMappingIfAbsent_new (db : DB) (aid : String) (b br : Nat)
    (h : (db.mappings.any fun m =>
        m.appraiser_id == aid && m.bank_id == b && m.branch_id == br) = false) :
    insertMappingIfAbsent db aid b br =
      { db with mappings := db.mappings ++ [⟨aid, b, br, true⟩] } := by
  unfold insertMappingIfAbsent
  rw [if_neg (by rw [h]; simp)]

lemma sameNameRegistered_insertMappingIfAbsent (db : DB) (aid : String) (b br : Nat)
    (nm : String) :
    sameNameRegistered (insertMappingIfAbsent db aid b br) nm =
      sameNameRegistered db nm := by
  unfold sameNameRegistered
  rw [insertMappingIfAbsent_sessions]

lemma recognize_face_single {α : Type} (fparse : String → Option α)
    (simFn : List α → List α → ℚ) (f : FaceDet α) (gallery : List GalleryRow)
    (st : ServiceState) :
    recognize_face fparse simFn true (some [f]) gallery st =
      match scanGallery fparse simFn st.threshold f.embedding gallery with
      | some p => .recognized p f.bbox
      | none => .noMatch f.bbox := rfl

lemma scanGallery_eq_some_iff {α : Type} (fparse : String → Option α)
    (simFn : List α → List α → ℚ) (t : ℚ) (probe : List α)
    (gallery : List GalleryRow) (p : RecognizedAppraiser) :
    scanGallery fparse simFn t probe gallery = some p ↔
      ∃ pre e post,
        gallery.filterMap (rowEntry fparse simFn probe) = pre ++ e :: post ∧
        p = e.2 ∧ e.1 > -1 ∧ e.1 > t ∧
        (∀ x ∈ pre, x.1 < e.1) ∧ (∀ x ∈ post, x.1 ≤ e.1) := by
  rw [scanGallery, scanLoop_eq_runningBest, runningBest_eq_some_iff]
  constructor
  · rintro (h | ⟨hb, _⟩)
    · exact h
    · exact absurd hb (by simp)
  · intro h
    exact Or.inl h

/-! ### Claim theorems -/

/-- C1.  `Identify` (`recognize_face` on a decodable single-face capture)
returns `recognized = true` exactly for the gallery candidate selected by
the running maximum: an entry wins iff its similarity beats the initial
best `-1` and the threshold, every earlier parseable entry is strictly
below it (ties go to the earlier-scanned candidate) and no later entry
exceeds it.  A candidate with similarity `≤` the threshold is never
returned, and an empty gallery yields the `noMatch` reply — a valid
negative result, not an error. -/
theorem identify_running_max_spec {α : Type} (fparse : String → Option α)
    (simFn : List α → List α → ℚ) (f : FaceDet α) (gallery : List GalleryRow)
    (t : ℚ) :
    (∀ p, recognize_face fparse simFn true (some [f]) gallery ⟨t⟩ =
        .recognized p f.bbox ↔
      ∃ pre e post,
        gallery.filterMap (rowEntry fparse simFn f.embedding) = pre ++ e :: post ∧
        p = e.2 ∧ e.1 > -1 ∧ e.1 > t ∧
        (∀ x ∈ pre, x.1 < e.1) ∧ (∀ x ∈ post, x.1 ≤ e.1)) ∧
    (∀ p, recognize_face fparse simFn true (some [f]) gallery ⟨t⟩ =
        .recognized p f.bbox → p.similarity > t) ∧
    recognize_face fparse simFn true (some [f]) ([] : List GalleryRow) ⟨t⟩ =
      .noMatch f.bbox := by
  have hmain : ∀ p, recognize_face fparse simFn true (some [f]) gallery ⟨t⟩ =
      .recognized p f.bbox ↔
    ∃ pre e post,
      gallery.filterMap (rowEntry fparse simFn f.embedding) = pre ++ e :: post ∧
      p = e.2 ∧ e.1 > -1 ∧ e.1 > t ∧
      (∀ x ∈ pre, x.1 < e.1) ∧ (∀ x ∈ post, x.1 ≤ e.1) := by
    intro p
    rw [recognize_face_single]
    cases hscan : scanGallery fparse simFn (ServiceState.mk t).threshold
        f.embedding gallery with
    | some q =>
      have hq := (scanGallery_eq_some_iff fparse simFn t f.embedding gallery q).mp hscan
      constructor
      · intro h
        have : q = p := by
          have := RecognizeResult.recognized.injEq q f.bbox p f.bbox ▸ h
          exact this.1
        exact this ▸ hq
      · intro h
        have : scanGallery fparse simFn t f.embedding gallery = some p :=
          (scanGallery_eq_some_iff fparse simFn t f.embedding gallery p).mpr h
        rw [hscan] at this
        rw [(Option.some.injEq _ _ ▸ this :)]
    | none =>
      constructor
      · intro h
        exact absurd h (by simp)
      · intro h
        have : scanGallery fparse simFn t f.embedding gallery = some p :=
          (scanGallery_eq_some_iff fparse simFn t f.embedding gallery p).mpr h
        rw [hscan] at this
        cases this
  refine ⟨hmain, ?_, rfl⟩
  intro p h
  obtain ⟨pre, e, post, hdec, hp, _, het, _, _⟩ := (hmain p).mp h
  have hmem : e ∈ gallery.filterMap (rowEntry fparse simFn f.embedding) := by
    rw [hdec]
    exact List.mem_append_right pre (List.mem_cons_self e post)
  obtain ⟨r, _, hre⟩ := List.mem_filterMap.mp hmem
  have hsim : e.2.similarity = e.1 := rowEntry_sim_eq hre
  rw [hp, hsim]
  exact het

/-- Witness for C1 at a concrete tied gallery: two candidates share the
best similarity `3`; the earlier-scanned one (`AP1`) is returned. -/
theorem identify_running_max_spec_witness :
    recognize_face demoParse demoSim true (some [exFace]) [exRowA, exRowB, exRowC]
        ⟨0⟩ = .recognized exPayloadA exFace.bbox ∧
    recognize_face demoParse demoSim true (some [exFace])
        ([] : List GalleryRow) ⟨0⟩ = .noMatch exFace.bbox := by
  constructor
  · exact ((identify_running_max_spec demoParse demoSim exFace
      [exRowA, exRowB, exRowC] 0).1 exPayloadA).mpr
      ⟨[], (3, exPayloadA), [(3, exPayloadB), (2, exPayloadC)],
        by decide, by decide, by decide, by decide, by decide, by decide⟩
  · exact (identify_running_max_spec demoParse demoSim exFace
      [exRowA, exRowB, exRowC] 0).2.2

/-- C5.  Enroll (`register_face`) and Identify (`recognize_face`) share the
same failure taxonomy on the capture: zero detected faces fails with the
no-face outcome, several detected faces with the multiple-faces outcome,
and an unavailable feature extractor with the service-unavailable outcome,
which is distinct from the biometric rejections and from a no-match
result. -/
theorem capture_failure_taxonomy {α : Type} (fparse : String → Option α)
    (simFn : List α → List α → ℚ) (fstr : α → String)
    (gallery : List GalleryRow) (st : ServiceState) (db : DB)
    (img : Option (List (FaceDet α))) (f g : FaceDet α) (fs : List (FaceDet α))
    (nm aid image ts : String) (bank branch email phone : Option String) :
    recognize_face fparse simFn true (some ([] : List (FaceDet α))) gallery st =
      .noFaceDetected ∧
    recognize_face fparse simFn true (some (f :: g :: fs)) gallery st =
      .multipleFaces ∧
    recognize_face fparse simFn false img gallery st = .serviceUnavailable ∧
    register_face fstr true (some ([] : List (FaceDet α))) nm aid image ts
      bank branch email phone db = (.failed (.extract .noFace), db) ∧
    register_face fstr true (some (f :: g :: fs)) nm aid image ts
      bank branch email phone db = (.failed (.extract .multipleFaces), db) ∧
    register_face fstr false img nm aid image ts bank branch email phone db =
      (.serviceUnavailable, db) ∧
    RecognizeResult.serviceUnavailable ≠ .noFaceDetected ∧
    RecognizeResult.serviceUnavailable ≠ .multipleFaces ∧
    (∀ p bb, RecognizeResult.serviceUnavailable ≠ .recognized p bb) ∧
    (∀ bb, RecognizeResult.serviceUnavailable ≠ .noMatch bb) := by
  refine ⟨rfl, rfl, ?_, rfl, rfl, ?_, by simp, by simp, by simp, by simp⟩
  · cases img <;> rfl
  · cases img <;> rfl

/-- C8.  `update_threshold` fails with the invalid-threshold error for every
value outside `[0, 1]`, leaving the threshold unchanged; inside `[0, 1]` it
installs the new process-wide threshold and reports the old and new values,
and an `Identify` run against the updated state applies the new threshold:
a gallery whose similarities are all `≤` the new value yields no match. -/
theorem update_threshold_spec (st : ServiceState) (t : ℚ) :
    ((t < 0 ∨ 1 < t) →
      update_threshold st t = (.error "Threshold must be between 0.0 and 1.0", st)) ∧
    (0 ≤ t → t ≤ 1 → update_threshold st t = (.ok ⟨st.threshold, t⟩, ⟨t⟩)) ∧
    (∀ {α : Type} (fparse : String → Option α) (simFn : List α → List α → ℚ)
        (f : FaceDet α) (gallery : List GalleryRow),
      0 ≤ t → t ≤ 1 →
      (∀ e ∈ gallery.filterMap (rowEntry fparse simFn f.embedding), e.1 ≤ t) →
      recognize_face fparse simFn true (some [f]) gallery
        (update_threshold st t).2 = .noMatch f.bbox) := by
  refine ⟨?_, ?_, ?_⟩
  · intro h
    unfold update_threshold
    rw [if_pos]
    rintro ⟨h0, h1⟩
    rcases h with h | h
    · exact absurd h0 (not_le_of_lt h)
    · exact absurd h1 (not_le_of_lt h)
  · intro h0 h1
    unfold update_threshold
    rw [if_neg (fun hcon => hcon ⟨h0, h1⟩)]
  · intro α fparse simFn f gallery h0 h1 hall
    have hupd : (update_threshold st t).2 = ⟨t⟩ := by
      unfold update_threshold
      rw [if_neg (fun hcon => hcon ⟨h0, h1⟩)]
    rw [hupd, recognize_face_single]
    have hscan : scanGallery fparse simFn (ServiceState.mk t).threshold
        f.embedding gallery = none := by
      rw [scanGallery, scanLoop_eq_runningBest]
      exact runningBest_no_update t _ _ _ fun e he hcon =>
        absurd hcon.2 (not_lt_of_le (hall e he))
    rw [hscan]

/-- Witness for C8: `1.5` and `-0.1` are rejected with the state unchanged,
`0.7` is accepted, and a probe whose best gallery similarity is `0.6`
matches at the default threshold `0.5` but yields no match after the
update to `0.7`. -/
theorem update_threshold_spec_witness :
    update_threshold ⟨mkRat 1 2⟩ (mkRat 3 2) =
      (.error "Threshold must be between 0.0 and 1.0", ⟨mkRat 1 2⟩) ∧
    update_threshold ⟨mkRat 1 2⟩ (mkRat (-1) 10) =
      (.error "Threshold must be between 0.0 and 1.0", ⟨mkRat 1 2⟩) ∧
    update_threshold ⟨mkRat 1 2⟩ (mkRat 7 10) =
      (.ok ⟨mkRat 1 2, mkRat 7 10⟩, ⟨mkRat 7 10⟩) ∧
    recognize_face demoParse demoSim true (some [exFace]) [exRowQ]
      (update_threshold ⟨mkRat 1 2⟩ (mkRat 7 10)).2 = .noMatch exFace.bbox ∧
    recognize_face demoParse demoSim true (some [exFace]) [exRowQ]
      ⟨mkRat 1 2⟩ = .recognized exPayloadQ exFace.bbox := by
  refine ⟨?_, ?_, ?_, ?_, by decide⟩
  · exact (update_threshold_spec ⟨mkRat 1 2⟩ (mkRat 3 2)).1 (Or.inr (by decide))
  · exact (update_threshold_spec ⟨mkRat 1 2⟩ (mkRat (-1) 10)).1 (Or.inl (by decide))
  · exact (update_threshold_spec ⟨mkRat 1 2⟩ (mkRat 7 10)).2.1 (by decide) (by decide)
  · exact (update_threshold_spec ⟨mkRat 1 2⟩ (mkRat 7 10)).2.2 demoParse demoSim
      exFace [exRowQ] (by decide) (by decide) (by decide)

/-- C9.  A gallery row whose stored embedding is falsy or fails to parse is
skipped and the scan continues: inserting such a row anywhere in the
gallery changes neither the scan result nor the reply of the whole
`recognize_face` call, which still completes normally. -/
theorem corrupt_row_skipped {α : Type} (fparse : String → Option α)
    (simFn : List α → List α → ℚ) (t : ℚ) (f : FaceDet α)
    (l1 l2 : List GalleryRow) (bad : GalleryRow)
    (hbad : rowEntry fparse simFn f.embedding bad = none) :
    scanGallery fparse simFn t f.embedding (l1 ++ bad :: l2) =
      scanGallery fparse simFn t f.embedding (l1 ++ l2) ∧
    (∀ st : ServiceState,
      recognize_face fparse simFn true (some [f]) (l1 ++ bad :: l2) st =
        recognize_face fparse simFn true (some [f]) (l1 ++ l2) st) := by
  have hscan : ∀ t2 : ℚ, scanGallery fparse simFn t2 f.embedding (l1 ++ bad :: l2) =
      scanGallery fparse simFn t2 f.embedding (l1 ++ l2) := by
    intro t2
    rw [scanGallery, scanGallery, scanLoop_eq_runningBest, scanLoop_eq_runningBest,
      List.filterMap_append, List.filterMap_append, List.filterMap_cons, hbad]
  refine ⟨hscan t, ?_⟩
  intro st
  rw [recognize_face_single, recognize_face_single, hscan st.threshold]

/-- Witness for C9: a row whose encoding `"xx"` fails to parse is inserted
mid-gallery without changing the identification outcome. -/
theorem corrupt_row_skipped_witness :
    rowEntry demoParse demoSim exFace.embedding exRowBad = none ∧
    recognize_face demoParse demoSim true (some [exFace])
        ([exRowA] ++ exRowBad :: [exRowC]) ⟨0⟩ =
      recognize_face demoParse demoSim true (some [exFace]) ([exRowA] ++ [exRowC]) ⟨0⟩ :=
  ⟨by decide,
   (corrupt_row_skipped demoParse demoSim 0 exFace [exRowA] [exRowC] exRowBad
     (by decide)).2 ⟨0⟩⟩

/-- C10.  The storage format round-trips: enrollment stores the embedding
as a comma-join of the per-component representations, the gallery scan
splits on commas and converts each piece back, so — under the CPython
float printing contract (exact per-component round-trip, no comma, never
empty) — parsing the serialized embedding recovers it exactly, and the
stored identity's scanned similarity against its own enrollment embedding
is exactly the self-similarity of that embedding. -/
theorem embedding_roundtrip_selfsim {α : Type} (fstr : α → String)
    (fparse : String → Option α)
    (hrt : ∀ x, fparse (fstr x) = some x) (hnc : ∀ x, ',' ∉ (fstr x).toList)
    (hne : ∀ x, fstr x ≠ "") (e : List α) (he : e ≠ [])
    (simFn : List α → List α → ℚ) (r : GalleryRow)
    (hr : r.face_encoding = some (serializeEmbedding fstr e)) :
    parseEmbedding fparse (serializeEmbedding fstr e) = some e ∧
    (rowEntry fparse simFn e r).map Prod.fst = some (simFn e e) := by
  have hps := parse_serialize hrt hnc e he
  refine ⟨hps, ?_⟩
  unfold rowEntry
  rw [hr]
  simp only [if_neg (serializeEmbedding_ne_empty hne he), hps]
  rfl

/-- Witness for C10 at `Bool` scalars: `[true, false]` serializes to
`"1,0"`, parses back exactly, and the stored row's self-similarity is the
self-similarity of the embedding. -/
theorem embedding_roundtrip_selfsim_witness :
    serializeEmbedding boolStr [true, false] = "1,0" ∧
    parseEmbedding boolParse "1,0" = some [true, false] ∧
    (rowEntry boolParse boolSim [true, false] exRowBool).map Prod.fst = some 1 := by
  have h := embedding_roundtrip_selfsim boolStr boolParse (by decide) (by decide)
    (by decide) [true, false] (by decide) boolSim exRowBool (by decide)
  refine ⟨by decide, ?_, ?_⟩
  · have hser : serializeEmbedding boolStr [true, false] = "1,0" := by decide
    rw [← hser]
    exact h.1
  · have hsim : boolSim [true, false] [true, false] = 1 := by decide
    rw [← hsim]
    exact h.2

lemma verify_appraiser_of_some (db : DB) (name : String) (b br : Nat)
    (p : VerifyPayload)
    (hres : (verify_appraiser_exists_in_bank_branch db (pyStrip name) b br).result =
      some p) :
    verify_appraiser db name b br =
      (.authorized p, (verify_appraiser_exists_in_bank_branch db (pyStrip name) b br).db) := by
  simp only [verify_appraiser]
  rw [hres]

lemma verify_appraiser_of_none (db : DB) (name : String) (b br : Nat)
    (hres : (verify_appraiser_exists_in_bank_branch db (pyStrip name) b br).result =
      none) :
    verify_appraiser db name b br =
      match (verify_appraiser_exists_in_bank_branch db (pyStrip name) b br).db.sessions.find?
          (regNameMatch (pyStrip name)) with
      | some existing =>
        (.registeredElsewhere
          (existing.bank_id.bind fun bid =>
            bankNameOf (verify_appraiser_exists_in_bank_branch db (pyStrip name) b br).db bid)
          (existing.branch_id.bind fun brid =>
            branchNameOf (verify_appraiser_exists_in_bank_branch db (pyStrip name) b br).db brid),
         (verify_appraiser_exists_in_bank_branch db (pyStrip name) b br).db)
      | none =>
        (.notRegistered,
         (verify_appraiser_exists_in_bank_branch db (pyStrip name) b br).db) := by
  simp only [verify_appraiser]
  rw [hres]

/-- C2.  The `/verify-appraiser` endpoint fetches every registered identity
whose name matches case-insensitively and, scanning them in storage order,
authorizes the first candidate that passes either the mapping-table check
or the legacy primary-pair check for the requested tenant; when same-name
identities exist but none is authorized there, it reports
registered-elsewhere with the first such identity's primary tenant names;
only when no identity bears the name does it report not-registered — and
those two negative outcomes are distinct. -/
theorem verify_name_resolution_spec (db : DB) (name : String) (b br : Nat) :
    (∀ p, (verify_appraiser db name b br).1 = .authorized p ↔
      ∃ pre a post,
        db.sessions.filter (regNameMatch (pyStrip name)) = pre ++ a :: post ∧
        (∀ x ∈ pre, authorizedHere db b br x = false) ∧
        authorizedHere db b br a = true ∧
        p = verifyPayloadOf db b br a) ∧
    (∀ a rest, db.sessions.filter (regNameMatch (pyStrip name)) = a :: rest →
      (∀ x ∈ a :: rest, authorizedHere db b br x = false) →
      (verify_appraiser db name b br).1 =
        .registeredElsewhere (a.bank_id.bind fun bid => bankNameOf db bid)
          (a.branch_id.bind fun brid => branchNameOf db brid)) ∧
    (db.sessions.filter (regNameMatch (pyStrip name)) = [] →
      (verify_appraiser db name b br).1 = .notRegistered) ∧
    (∀ bn brn, (VerifyResponse.registeredElsewhere bn brn) ≠ .notRegistered) := by
  have hcands : sameNameRegistered db (pyStrip name) =
      db.sessions.filter (regNameMatch (pyStrip name)) := sameNameRegistered_strip db name
  refine ⟨?_, ?_, ?_, by simp⟩
  · intro p
    constructor
    · intro h
      cases hres : (verify_appraiser_exists_in_bank_branch db (pyStrip name) b br).result with
      | some q =>
        rw [verify_appraiser_of_some db name b br q hres] at h
        have hq : q = p := by
          have := VerifyResponse.authorized.injEq q p ▸ h
          exact this
        subst hq
        obtain ⟨pre, a, post, hdec, hpre, hauth, hp⟩ :=
          (verify_method_result_some_iff db (pyStrip name) b br q).mp hres
        exact ⟨pre, a, post, hcands ▸ hdec, hpre, hauth, hp⟩
      | none =>
        rw [verify_appraiser_of_none db name b br hres] at h
        cases hfind : (verify_appraiser_exists_in_bank_branch db (pyStrip name) b br).db.sessions.find?
            (regNameMatch (pyStrip name)) with
        | some ex2 =>
          rw [hfind] at h
          exact absurd h (by simp)
        | none =>
          rw [hfind] at h
          exact absurd h (by simp)
    · rintro ⟨pre, a, post, hdec, hpre, hauth, hp⟩
      have hres : (verify_appraiser_exists_in_bank_branch db (pyStrip name) b br).result =
          some p :=
        (verify_method_result_some_iff db (pyStrip name) b br p).mpr
          ⟨pre, a, post, hcands.symm ▸ hdec, hpre, hauth, hp⟩
      rw [verify_appraiser_of_some db name b br p hres]
  · intro a rest hdec hall
    have hres : verify_appraiser_exists_in_bank_branch db (pyStrip name) b br =
        ⟨none, false, db⟩ :=
      verify_method_result_none_of db (pyStrip name) b br
        (fun x hx => hall x (by rw [← hdec, ← hcands]; exact hx))
    have hres2 : (verify_appraiser_exists_in_bank_branch db (pyStrip name) b br).result =
        none := by rw [hres]
    rw [verify_appraiser_of_none db name b br hres2, hres]
    have hfind : db.sessions.find? (regNameMatch (pyStrip name)) = some a := by
      rw [find?_eq_head_filter, hdec]
      rfl
    rw [hfind]
  · intro hdec
    have hres : verify_appraiser_exists_in_bank_branch db (pyStrip name) b br =
        ⟨none, false, db⟩ :=
      verify_method_result_none_of db (pyStrip name) b br
        (fun x hx => absurd (hcands ▸ hx : x ∈ db.sessions.filter (regNameMatch (pyStrip name)))
          (by rw [hdec]; simp))
    have hres2 : (verify_appraiser_exists_in_bank_branch db (pyStrip name) b br).result =
        none := by rw [hres]
    rw [verify_appraiser_of_none db name b br hres2, hres]
    have hfind : db.sessions.find? (regNameMatch (pyStrip name)) = none := by
      rw [find?_eq_head_filter, hdec]
      rfl
    rw [hfind]

/-- Witness for C2 on a database with two identities both named
"Asha Rao": the tenant-(1,2) query authorizes AP1, the tenant-(3,2) query
(where neither is authorized) reports registered-elsewhere with AP1's
primary tenant names, and an unknown name reports not-registered. -/
theorem verify_name_resolution_spec_witness :
    (verify_appraiser exDb2 "Asha Rao" 1 2).1 =
      .authorized (verifyPayloadOf exDb2 1 2 exSess1) ∧
    (verify_appraiser exDb2 "Asha Rao" 3 2).1 =
      .registeredElsewhere (some "Bank One") (some "Branch A") ∧
    (verify_appraiser exDb2 "Nobody" 1 2).1 = .notRegistered := by
  refine ⟨?_, ?_, ?_⟩
  · exact ((verify_name_resolution_spec exDb2 "Asha Rao" 1 2).1
      (verifyPayloadOf exDb2 1 2 exSess1)).mpr
      ⟨[], exSess1, [exSess2], by decide, by decide, by decide, by decide⟩
  · have h := (verify_name_resolution_spec exDb2 "Asha Rao" 3 2).2.1 exSess1 [exSess2]
      (by decide) (by decide)
    rw [h]
    decide
  · exact (verify_name_resolution_spec exDb2 "Nobody" 1 2).2.2.1 (by decide)

lemma activeMapped_append_row (db : DB) (row : MapRow) (aid : String) (b br : Nat) :
    activeMapped { db with mappings := db.mappings ++ [row] } aid b br =
      (activeMapped db aid b br ||
        (row.appraiser_id == aid && row.bank_id == b && row.branch_id == br &&
          row.is_active)) := by
  simp [activeMapped, List.any_append]

/-- Counterexample to C3 as stated: in a state where the only mapping row
for the candidate's key is soft-deleted, the legacy fallback triggers (no
active row, primary pair matches), both calls return the same result, but
the second call does NOT go through the mapping-table fast path — the
`ON CONFLICT DO NOTHING` self-heal left the soft-deleted row in place, so
the second call used the legacy fallback again. -/
theorem selfheal_softdeleted_no_fastpath :
    (∀ m ∈ exDb4.mappings,
      ¬(m.appraiser_id = "AP1" ∧ m.bank_id = 1 ∧ m.branch_id = 2 ∧ m.is_active = true)) ∧
    (verify_appraiser_exists_in_bank_branch exDb4 "Asha Rao" 1 2).result ≠ none ∧
    (verify_appraiser_exists_in_bank_branch exDb4 "Asha Rao" 1 2).viaMapping = false ∧
    (verify_appraiser_exists_in_bank_branch
        (verify_appraiser_exists_in_bank_branch exDb4 "Asha Rao" 1 2).db
        "Asha Rao" 1 2).viaMapping = false ∧
    (verify_appraiser_exists_in_bank_branch
        (verify_appraiser_exists_in_bank_branch exDb4 "Asha Rao" 1 2).db
        "Asha Rao" 1 2).result =
      (verify_appraiser_exists_in_bank_branch exDb4 "Asha Rao" 1 2).result := by
  decide

/-- C3 (amended).  When the legacy fallback authorizes a candidate and no
mapping row for its key exists at all (not even a soft-deleted one), the
resolver is idempotent: the second identical call returns the same result,
this time through the mapping-table fast path, it leaves the database
unchanged, and exactly one mapping row for the key exists afterwards (the
composite key stays unique).  When a soft-deleted row exists instead, the
self-heal insert does nothing and the second call again uses the legacy
fallback (see the counterexample), still returning the same result. -/
theorem verify_selfheal_idempotent (db : DB) (nm : String) (b br : Nat)
    (p : VerifyPayload)
    (hpw : db.sessions.Pairwise (fun s s2 =>
      s.status = "registered" → s2.status = "registered" →
        s.appraiser_id ≠ s2.appraiser_id))
    (h1 : (verify_appraiser_exists_in_bank_branch db nm b br).result = some p)
    (h2 : (verify_appraiser_exists_in_bank_branch db nm b br).viaMapping = false)
    (h3 : ∀ m ∈ db.mappings,
      ¬(m.appraiser_id = p.appraiser_id ∧ m.bank_id = b ∧ m.branch_id = br)) :
    (verify_appraiser_exists_in_bank_branch
        (verify_appraiser_exists_in_bank_branch db nm b br).db nm b br).result = some p ∧
    (verify_appraiser_exists_in_bank_branch
        (verify_appraiser_exists_in_bank_branch db nm b br).db nm b br).viaMapping = true ∧
    (verify_appraiser_exists_in_bank_branch
        (verify_appraiser_exists_in_bank_branch db nm b br).db nm b br).db =
      (verify_appraiser_exists_in_bank_branch db nm b br).db ∧
    (verify_appraiser_exists_in_bank_branch db nm b br).db.mappings.countP
      (fun m => m.appraiser_id == p.appraiser_id && m.bank_id == b &&
        m.branch_id == br) = 1 := by
  have hout := verify_method_eta db nm b br
  rw [h1, h2] at hout
  obtain ⟨pre, a, post, hdec, hpre, hcase⟩ :=
    (verify_method_some_iff db nm b br p false _).mp hout
  rcases hcase with ⟨_, hvt, _⟩ | ⟨hmF, hpm, _, hdb, hp⟩
  · cases hvt
  · have hpa : p.appraiser_id = a.appraiser_id := by rw [hp]; rfl
    have hany : (db.mappings.any fun m =>
        m.appraiser_id == a.appraiser_id && m.bank_id == b && m.branch_id == br) =
        false := by
      rw [Bool.eq_false_iff]
      intro hsome
      obtain ⟨m, hm, hbeq⟩ := List.any_eq_true.mp hsome
      simp only [Bool.and_eq_true, beq_iff_eq] at hbeq
      exact h3 m hm ⟨hpa ▸ hbeq.1.1, hbeq.1.2, hbeq.2⟩
    have hdb2 : (verify_appraiser_exists_in_bank_branch db nm b br).db =
        { db with mappings := db.mappings ++ [⟨a.appraiser_id, b, br, true⟩] } := by
      rw [hdb]
      exact insertMappingIfAbsent_new db a.appraiser_id b br hany
    have hcands2 : sameNameRegistered
        (verify_appraiser_exists_in_bank_branch db nm b br).db nm =
        sameNameRegistered db nm := by
      rw [hdb]
      exact sameNameRegistered_insertMappingIfAbsent db a.appraiser_id b br nm
    have hpw2 : (sameNameRegistered db nm).Pairwise (fun s s2 =>
        s.status = "registered" → s2.status = "registered" →
          s.appraiser_id ≠ s2.appraiser_id) :=
      List.Pairwise.sublist (List.filter_sublist _) hpw
    have hreg : ∀ x ∈ sameNameRegistered db nm, x.status = "registered" := by
      intro x hx
      have := List.of_mem_filter hx
      simp only [regNameMatch, Bool.and_eq_true, beq_iff_eq] at this
      exact this.1
    have hamem : a ∈ sameNameRegistered db nm := by
      rw [hdec]
      exact List.mem_append_right pre (List.mem_cons_self a post)
    have hneq : ∀ x ∈ pre, x.appraiser_id ≠ a.appraiser_id := by
      intro x hx
      have hx2 : x ∈ sameNameRegistered db nm := by
        rw [hdec]
        exact List.mem_append_left _ hx
      have hpair := hdec ▸ hpw2
      have := (List.pairwise_append.mp hpair).2.2 x hx a (List.mem_cons_self a post)
      exact this (hreg x hx2) (hreg a hamem)
    have hsecond : verify_appraiser_exists_in_bank_branch
        (verify_appraiser_exists_in_bank_branch db nm b br).db nm b br =
        ⟨some p, true, (verify_appraiser_exists_in_bank_branch db nm b br).db⟩ := by
      apply (verify_method_some_iff _ nm b br p true _).mpr
      refine ⟨pre, a, post, by rw [hcands2]; exact hdec, ?_,
        Or.inl ⟨?_, rfl, rfl, ?_⟩⟩
      · intro x hx
        have hx0 := hpre x hx
        rw [authorizedHere, Bool.or_eq_false_iff] at hx0
        rw [authorizedHere, Bool.or_eq_false_iff]
        refine ⟨?_, hx0.2⟩
        rw [hdb2, activeMapped_append_row, Bool.or_eq_false_iff]
        refine ⟨hx0.1, ?_⟩
        have : (a.appraiser_id == x.appraiser_id) = false :=
          beq_eq_false_iff_ne.mpr (fun he => hneq x hx he.symm)
        simp [this]
      · rw [hdb2, activeMapped_append_row]
        simp
      · rw [hdb2]
        have : verifyPayloadOf { db with
            mappings := db.mappings ++ [⟨a.appraiser_id, b, br, true⟩] } b br a =
            verifyPayloadOf db b br a := by
          unfold verifyPayloadOf bankNameOf branchNameOf
          rfl
        rw [this]
        exact hp
    refine ⟨by rw [hsecond], by rw [hsecond], by rw [hsecond], ?_⟩
    rw [hdb2]
    show (db.mappings ++ [(⟨a.appraiser_id, b, br, true⟩ : MapRow)]).countP
      (fun m : MapRow => m.appraiser_id == p.appraiser_id && m.bank_id == b &&
        m.branch_id == br) = 1
    rw [List.countP_append]
    have hz : db.mappings.countP
        (fun m => m.appraiser_id == p.appraiser_id && m.bank_id == b &&
          m.branch_id == br) = 0 := by
      apply List.countP_eq_zero.mpr
      intro m hm hbeq
      simp only [Bool.and_eq_true, beq_iff_eq] at hbeq
      exact h3 m hm ⟨hbeq.1.1, hbeq.1.2, hbeq.2⟩
    rw [hz]
    simp [List.countP_cons, hpa]

/-- Witness for C3 (amended) on a state with a legacy identity and no
mapping row at all: the first call self-heals, the second call returns the
same candidate via the fast path. -/
theorem verify_selfheal_idempotent_witness :
    (verify_appraiser_exists_in_bank_branch
        (verify_appraiser_exists_in_bank_branch exDb3 "Asha Rao" 1 2).db
        "Asha Rao" 1 2).result = some (verifyPayloadOf exDb3 1 2 exSess1) ∧
    (verify_appraiser_exists_in_bank_branch
        (verify_appraiser_exists_in_bank_branch exDb3 "Asha Rao" 1 2).db
        "Asha Rao" 1 2).viaMapping = true ∧
    (verify_appraiser_exists_in_bank_branch exDb3 "Asha Rao" 1 2).db.mappings.countP
      (fun m => m.appraiser_id == (verifyPayloadOf exDb3 1 2 exSess1).appraiser_id &&
        m.bank_id == 1 && m.branch_id == 2) = 1 := by
  have h := verify_selfheal_idempotent exDb3 "Asha Rao" 1 2
    (verifyPayloadOf exDb3 1 2 exSess1) (by decide) (by decide) (by decide) (by decide)
  exact ⟨h.1, h.2.1, h.2.2.2⟩

/-- Counterexample to C4 as stated: after
`remove_appraiser_from_bank_branch` soft-deletes AP1's mapping row for its
own primary pair, `verify_appraiser_exists_in_bank_branch` still reports
AP1 authorized there — the legacy fallback (primary pair equality) runs
whenever no ACTIVE row exists and overrides the soft-deleted row (which is
left inactive by the `ON CONFLICT DO NOTHING` insert). -/
theorem softdeleted_mapping_overridden_by_primary :
    remove_appraiser_from_bank_branch exDb4active "AP1" 1 2 = exDb4 ∧
    exDb4.mappings = [⟨"AP1", 1, 2, false⟩] ∧
    ((verify_appraiser_exists_in_bank_branch exDb4 "Asha Rao" 1 2).result).map
      VerifyPayload.appraiser_id = some "AP1" ∧
    (verify_appraiser_exists_in_bank_branch exDb4 "Asha Rao" 1 2).db = exDb4 := by
  decide

/-- C4 (amended).  A soft-deleted mapping row blocks authorization through
the mapping table, and when the identity's primary bank/branch pair does
NOT equal the requested pair the identity is never reported authorized
there; but when the primary pair equals the requested pair, the legacy
fallback overrides the soft-deleted row and still authorizes (see the
counterexample) — so the mapping row is the source of truth only for
non-primary tenants. -/
theorem softdeleted_mapping_blocks_nonprimary (db : DB) (aid : String) (b br : Nat)
    (hnoactive : ∀ m ∈ db.mappings, m.appraiser_id = aid → m.bank_id = b →
      m.branch_id = br → m.is_active = false)
    (hnoprimary : ∀ s ∈ db.sessions, s.appraiser_id = aid →
      ¬(s.bank_id = some b ∧ s.branch_id = some br)) :
    ∀ (nm : String) (p : VerifyPayload),
      (verify_appraiser_exists_in_bank_branch db nm b br).result = some p →
      p.appraiser_id ≠ aid := by
  intro nm p hres hcon
  obtain ⟨pre, a, post, hdec, _, hauth, hp⟩ :=
    (verify_method_result_some_iff db nm b br p).mp hres
  have hpa : a.appraiser_id = aid := by
    rw [← hcon, hp]
    rfl
  have hamem : a ∈ db.sessions := by
    have : a ∈ sameNameRegistered db nm := by
      rw [hdec]
      exact List.mem_append_right pre (List.mem_cons_self a post)
    exact List.mem_of_mem_filter this
  rw [authorizedHere] at hauth
  rcases Bool.or_eq_true_iff.mp hauth with hm | hprim
  · obtain ⟨m, hmm, hbeq⟩ := List.any_eq_true.mp hm
    simp only [Bool.and_eq_true, beq_iff_eq] at hbeq
    have := hnoactive m hmm (hbeq.1.1.1 ▸ hpa) hbeq.1.1.2 hbeq.1.2
    rw [this] at hbeq
    exact Bool.false_ne_true hbeq.2
  · simp only [Bool.and_eq_true, beq_iff_eq] at hprim
    exact hnoprimary a hamem hpa ⟨hprim.1, hprim.2⟩

/-- Witness for C4 (amended): AP1's mapping at (1, 2) is soft-deleted and
AP1's primary tenant is elsewhere, so the resolver never reports AP1; the
same-name identity AP2 (primary (1, 2)) is the one returned. -/
theorem softdeleted_mapping_blocks_nonprimary_witness :
    (∀ p : VerifyPayload,
      (verify_appraiser_exists_in_bank_branch exDb5 "Asha Rao" 1 2).result = some p →
      p.appraiser_id ≠ "AP1") ∧
    ((verify_appraiser_exists_in_bank_branch exDb5 "Asha Rao" 1 2).result).map
      VerifyPayload.appraiser_id = some "AP2" :=
  ⟨fun p => softdeleted_mapping_blocks_nonprimary exDb5 "AP1" 1 2
      (by decide) (by decide) "Asha Rao" p,
   by decide⟩

/-- C6.  Enrolling an `appraiser_id` that already has a registration row
updates that row in place — the new embedding, profile image, tenant
fields and `registered` status overwrite the old ones — and never creates
a second row for the same `appraiser_id`: the session count and the number
of rows under the registration key are unchanged. -/
theorem reenroll_upsert_in_place (db : DB) (nm aid img ts : String)
    (fe bank branch email phone : Option String) (bid brid tuid : Option Nat)
    (hex : ∃ r ∈ db.sessions, (r.session_id == "registration_" ++ aid) = true) :
    (insert_appraiser db nm aid img ts fe bank branch email phone bid brid
        tuid).2.sessions.length = db.sessions.length ∧
    (insert_appraiser db nm aid img ts fe bank branch email phone bid brid
        tuid).2.sessions.countP (fun r => r.session_id == "registration_" ++ aid) =
      db.sessions.countP (fun r => r.session_id == "registration_" ++ aid) ∧
    ∀ r ∈ (insert_appraiser db nm aid img ts fe bank branch email phone bid brid
        tuid).2.sessions,
      (r.session_id == "registration_" ++ aid) = true →
      r.name = nm ∧ r.image_data = img ∧ r.face_encoding = fe ∧
        r.status = "registered" ∧ r.created_at = ts ∧ r.bank = bank ∧
        r.branch = branch ∧ r.email = email ∧ r.phone = phone := by
  obtain ⟨dbMid, hmidsess, hsesseq, -⟩ :=
    insert_appraiser_sessions db nm aid img ts fe bank branch email phone bid brid tuid
  rw [hsesseq]
  have hex2 : ∃ r ∈ dbMid.sessions, (r.session_id == "registration_" ++ aid) = true := by
    rw [hmidsess]
    exact hex
  obtain ⟨hlen, hcount, hfields⟩ :=
    upsertRegistrationRow_props dbMid ("registration_" ++ aid) nm aid img ts fe bank
      branch email phone _ _ _ hex2
  exact ⟨by rw [hlen, hmidsess], by rw [hcount, hmidsess], hfields⟩

/-- Witness for C6: re-enrolling AP1 on a database that already has its
registration row keeps exactly one session row and replaces the stored
embedding and image. -/
theorem reenroll_upsert_in_place_witness :
    (∃ r ∈ exDb6.sessions, (r.session_id == "registration_" ++ "AP1") = true) ∧
    (insert_appraiser exDb6 "New Name" "AP1" "newimg" "t9" (some "newenc") none none
        none none none none none).2.sessions.length = exDb6.sessions.length ∧
    ∀ r ∈ (insert_appraiser exDb6 "New Name" "AP1" "newimg" "t9" (some "newenc")
        none none none none none none none).2.sessions,
      (r.session_id == "registration_" ++ "AP1") = true →
      r.name = "New Name" ∧ r.image_data = "newimg" ∧
        r.face_encoding = some "newenc" ∧ r.status = "registered" := by
  have h := reenroll_upsert_in_place exDb6 "New Name" "AP1" "newimg" "t9"
    (some "newenc") none none none none none none none (by decide)
  exact ⟨by decide, h.1, fun r hr hid =>
    ⟨(h.2.2 r hr hid).1, (h.2.2 r hr hid).2.1, (h.2.2 r hr hid).2.2.1,
     (h.2.2 r hr hid).2.2.2.1⟩⟩

/-- Counterexample to C7 as stated: the lookup code the code computes is
`name.replace(' ', '_').upper()[:20]` — no trimming, and spaces become
underscores instead of being stripped — so it differs from the spec's
"trim, uppercase, strip spaces, truncate" normalization, and the
auto-created bank carries the underscore form. -/
theorem lookup_code_differs_from_spec_normalization :
    tenantLookupCode "State Bank" = "STATE_BANK" ∧
    specNormalizeCode "State Bank" = "STATEBANK" ∧
    tenantLookupCode "State Bank" ≠ specNormalizeCode "State Bank" ∧
    tenantLookupCode " SBI" ≠ specNormalizeCode " SBI" ∧
    ((insert_appraiser exDb7 "Asha Rao" "AP9" "img" "t0" none (some "State Bank")
        (some "T Nagar") none none none none none).2.banks.map Bank.bank_code =
      ["STATE_BANK"]) := by
  decide

/-- C7 (amended).  For a supplied human-readable bank or branch name, the
lookup code is `name.replace(' ', '_').upper()[:20]` (spaces become
underscores, no trimming — see the counterexample for the difference from
the spec's wording), and when no tenant with that code exists,
`insert_appraiser` auto-creates the bank and, under it, the branch —
register on first use. -/
theorem lookup_code_and_autocreate (db : DB) (bname brname : String)
    (hb : bname ≠ "") (hbr : brname ≠ "")
    (hnobank : get_bank_by_code db (tenantLookupCode bname) = none)
    (hwf : ∀ br2 ∈ db.branches, br2.bank_id < db.next_id)
    (nm aid image ts : String) (fe email phone : Option String) :
    (∃ bk ∈ (insert_appraiser db nm aid image ts fe (some bname) (some brname)
        email phone none none none).2.banks,
      bk.bank_code = tenantLookupCode bname ∧ bk.bank_name = bname) ∧
    (∃ br2 ∈ (insert_appraiser db nm aid image ts fe (some bname) (some brname)
        email phone none none none).2.branches,
      br2.branch_code = tenantLookupCode brname ∧ br2.branch_name = brname) := by
  have hrb := resolveBankId_create db bname hb hnobank
  have hnobr : get_branch_by_code
      { db with
          banks := db.banks ++ [⟨db.next_id, tenantLookupCode bname, bname,
            if bname.length > 20 then pyTake 20 bname else bname, true⟩],
          next_id := db.next_id + 1 }
      db.next_id (tenantLookupCode brname) = none := by
    unfold get_branch_by_code
    apply List.find?_eq_none.mpr
    intro br2 hbr2
    have hlt := hwf br2 hbr2
    intro hbeq
    simp only [Bool.and_eq_true, beq_iff_eq] at hbeq
    exact absurd hbeq.1.1 (Nat.ne_of_lt hlt)
  have hrbr := resolveBranchId_create
    { db with
        banks := db.banks ++ [⟨db.next_id, tenantLookupCode bname, bname,
          if bname.length > 20 then pyTake 20 bname else bname, true⟩],
        next_id := db.next_id + 1 }
    brname db.next_id hbr hnobr
  unfold insert_appraiser
  simp only [hrb, hrbr]
  constructor
  · rw [upsertMappingActive_banks, upsertRegistrationRow_banks, resolveTenantUserId_banks]
    exact ⟨⟨db.next_id, tenantLookupCode bname, bname,
      if bname.length > 20 then pyTake 20 bname else bname, true⟩,
      List.mem_append_right _ (List.mem_cons_self _ _), rfl, rfl⟩
  · rw [upsertMappingActive_branches, upsertRegistrationRow_branches,
      resolveTenantUserId_branches]
    exact ⟨⟨db.next_id + 1, db.next_id, tenantLookupCode brname, brname, true⟩,
      List.mem_append_right _ (List.mem_cons_self _ _), rfl, rfl⟩

/-- Witness for C7 (amended): on an empty database, supplying bank
"State Bank" and branch "T Nagar" creates both tenants with the
underscore-normalized codes. -/
theorem lookup_code_and_autocreate_witness :
    (∃ bk ∈ (insert_appraiser exDb7 "Asha Rao" "AP9" "img" "t0" none
        (some "State Bank") (some "T Nagar") none none none none none).2.banks,
      bk.bank_code = tenantLookupCode "State Bank" ∧ bk.bank_name = "State Bank") ∧
    (∃ br2 ∈ (insert_appraiser exDb7 "Asha Rao" "AP9" "img" "t0" none
        (some "State Bank") (some "T Nagar") none none none none none).2.branches,
      br2.branch_code = tenantLookupCode "T Nagar" ∧ br2.branch_name = "T Nagar") :=
  lookup_code_and_autocreate exDb7 "State Bank" "T Nagar" (by decide) (by decide)
    (by decide) (by decide) "Asha Rao" "AP9" "img" "t0" none none none

end GoldLoan
